import Mathlib

/-!
# SabaLessShare — verification of the envelope-encryption share-link protocol

Shallow embedding of the SabaLessShare library (src/index.js, src/dynamic.js,
src/url.js, src/crypto.js) and proofs of the specification claims.

Modelling conventions:

* Byte sequences (JS `ArrayBuffer` / `Uint8Array`) are `List Nat`.
* `btoa`/`atob`-based base64 (platform builtins, not repository code) are
  modelled by an injective, invertible textual codec over a hex-digit
  alphabet with `';'` as element separator.  The claims rely only on
  injectivity and invertibility of the codec.
* AES-GCM (`crypto.subtle`, a platform builtin) is modelled as ideal
  authenticated encryption at byte level: a ciphertext is the tuple
  (key, iv, aad, plaintext) in a self-delimiting serialization followed by an
  integrity checksum; decryption succeeds exactly on well-formed ciphertexts
  whose key, iv and aad match, which idealizes the GCM authentication tag.
* Randomness (DEK generation, salt, fresh IVs) is passed in explicitly as
  entropy arguments to the flows.
* URLs are modelled structurally: a location is its parsed query and fragment
  parameter lists; `URLSearchParams` serialization/parsing is the identity at
  this level of abstraction.
-/

namespace Saba

/-- Byte sequences (JS ArrayBuffer / Uint8Array contents). -/
abbrev Bytes := List Nat

/-! ## Textual codec (model of the base64 codec in src/crypto.js)

`arrayBufferToBase64` / `base64ToArrayBuffer` in src/crypto.js wrap the
platform `btoa`/`atob` builtins.  Modelled from the spec: "Base64 / base64url
codecs for embedding binary data in URL-safe text" — the model encodes each
byte as little-endian hex digits terminated by `';'`, preserving the codec's
essential properties (injectivity, invertibility, a URL-safe alphabet that
contains no `'.'`). -/

/-- The sixteen hex digit characters. -/
def hexChars : List Char := "0123456789abcdef".data

/-- Hex digit character of a value `< 16`. -/
def hexDigit (n : Nat) : Char := hexChars.getD n '0'

/-- Value of a hex digit character. -/
def hexVal (c : Char) : Nat := hexChars.indexOf c

/-- Little-endian hex digits of `n`, with explicit fuel (`n ≤ fuel`). -/
def hexLE : Nat → Nat → List Char
  | 0, _ => []
  | f + 1, n => if n = 0 then [] else hexDigit (n % 16) :: hexLE f (n / 16)

/-- Value of a little-endian hex digit list. -/
def natOfHex (l : List Char) : Nat := l.foldr (fun c acc => hexVal c + 16 * acc) 0

/-- Encode a byte list as text: hex digits of each byte, `';'`-terminated. -/
def encBytes : Bytes → List Char
  | [] => []
  | n :: t => hexLE n n ++ ';' :: encBytes t

/-- Decode, with explicit fuel (at least the character count). -/
def decBytesF : Nat → List Char → Bytes
  | 0, _ => []
  | _ + 1, [] => []
  | f + 1, l =>
    natOfHex (l.takeWhile (· != ';')) :: decBytesF f ((l.dropWhile (· != ';')).drop 1)

/-- Decode a textual byte encoding. -/
def decBytes (l : List Char) : Bytes := decBytesF l.length l

/-- Model of `arrayBufferToBase64` (src/crypto.js): bytes to URL-safe text. -/
def arrayBufferToBase64 (bs : Bytes) : String := ⟨encBytes bs⟩

/-- Model of `base64ToArrayBuffer` (src/crypto.js). -/
def base64ToArrayBuffer (s : String) : Bytes := decBytes s.data

/-! ## Text codec (model of TextEncoder / TextDecoder platform builtins) -/

/-- Model of `new TextEncoder().encode` (UTF-8 abstracted to code points). -/
def textEncode (s : String) : Bytes := s.data.map Char.toNat

/-- Model of `new TextDecoder().decode`. -/
def textDecode (bs : Bytes) : String := ⟨bs.map Char.ofNat⟩

/-! ## The `key.split('.')` destructuring used at receive time -/

/-- Model of `key.split('.')` followed by two-element destructuring:
splits at the first `'.'`. -/
def splitDot (s : String) : String × String :=
  (⟨s.data.takeWhile (· != '.')⟩, ⟨(s.data.dropWhile (· != '.')).drop 1⟩)

/-! ## Ideal authenticated-encryption model of AES-GCM

`encryptData`/`decryptData` (src/crypto.js) wrap `crypto.subtle`
encrypt/decrypt with AES-GCM.  Modelled from the spec: "authenticated
encryption ... fails with a DecryptionError on authentication failure, wrong
key, or corrupted ciphertext".  A ciphertext is the self-delimiting
serialization of (key, iv, aad, plaintext) followed by an additive integrity
checksum; decryption succeeds exactly on the well-formed ciphertext whose
key, iv and aad match.  The checksum idealizes the 128-bit GCM tag: it makes
every single-element alteration of a ciphertext detectable with certainty
rather than with overwhelming probability. -/

/-- Self-delimiting serialization of the optional AAD. -/
def aadEnc : Option Bytes → Bytes
  | none => [0]
  | some a => 1 :: a.length :: a

/-- The (key, iv, aad) header of an ideal ciphertext. -/
def gcmPrefix (key iv : Bytes) (aad : Option Bytes) : Bytes :=
  [key.length] ++ key ++ [iv.length] ++ iv ++ aadEnc aad

/-- Header plus plaintext. -/
def gcmBody (key iv : Bytes) (aad : Option Bytes) (plain : Bytes) : Bytes :=
  gcmPrefix key iv aad ++ plain

/-- Ideal AES-GCM encryption: body plus integrity checksum. -/
def encryptBytes (key iv : Bytes) (aad : Option Bytes) (plain : Bytes) : Bytes :=
  gcmBody key iv aad plain ++ [(gcmBody key iv aad plain).sum]

/-- Ideal AES-GCM decryption: recover the plaintext candidate and check that
the ciphertext is exactly its re-encryption under the supplied key, iv, aad. -/
def decryptBytes (key iv : Bytes) (aad : Option Bytes) (c : Bytes) : Option Bytes :=
  let p := c.dropLast.drop (gcmPrefix key iv aad).length
  if c = encryptBytes key iv aad p then some p else none

/-- Model of tampering with one element of a byte sequence (flipping bit `m`
of element `j`). -/
def flipBit (j m : Nat) (c : Bytes) : Bytes := c.set j (c.getD j 0 ^^^ 2 ^ m)

/-! ## Error taxonomy (src/errors.js) -/

/-- The typed failure signals of src/errors.js (plus `genericError` for the
plain `Error` throws guarding missing options). -/
inductive JsErr
  | invalidLink
  | expiredLink
  | passwordRequired
  | decryptionError
  | payloadTooLarge
  | genericError
deriving DecidableEq, Repr

/-! ## URL model and parseShareUrl (src/url.js)

A `Loc` is a location reduced to its parsed query (`location.search`) and
fragment (`location.hash`) parameter lists; `URLSearchParams.get` is
first-match lookup. -/

structure Loc where
  search : List (String × String)
  hash : List (String × String)
deriving DecidableEq, Repr

/-- `URLSearchParams.get`: first value bound to the name, or null. -/
def getParam (l : List (String × String)) (k : String) : Option String := l.lookup k

/-- JS `a || b` on nullable strings: null and the empty string are falsy. -/
def jsOr (a b : Option String) : Option String :=
  match a with
  | some s => if s = "" then b else some s
  | none => b

/-- JS `a || b` where the fallback `b` is a plain string. -/
def jsOrS (a : Option String) (b : String) : String :=
  match a with
  | some s => if s = "" then b else s
  | none => b

/-- JS `a || null`: coerce a falsy value to null. -/
def jsNull (a : Option String) : Option String :=
  match a with
  | some s => if s = "" then none else some s
  | none => none

/-- The canonical decoded form of a link's crypto parameters
(return value of parseShareUrl). -/
structure ShareParams where
  mode : String
  salt : Option String
  expdate : Option String
  key : String
  iv : String
  epayload : String
deriving DecidableEq, Repr

/-- The modeMap object literal of src/url.js. -/
def modeMap (s : String) : Option String :=
  if s = "s" ∨ s = "simple" then some "simple"
  else if s = "c" ∨ s = "cloud" then some "cloud"
  else if s = "d" ∨ s = "dynamic" then some "dynamic"
  else none

/-- getEpayloadByMode of src/url.js: mode-aware payload-parameter
resolution over the query parameters. -/
def getEpayloadByMode (mode : String) (q : List (String × String)) : String :=
  if mode = "cloud" ∨ mode = "dynamic" then
    jsOrS (jsOr (jsOr (getParam q "p") (getParam q "epayload")) (getParam q "data")) ""
  else
    jsOrS (jsOr (jsOr (getParam q "data") (getParam q "p")) (getParam q "epayload")) ""

/-- parseShareUrl of src/url.js. -/
def parseShareUrl (loc : Loc) : Option ShareParams :=
  let f := loc.hash
  match jsNull (jsOr (getParam f "k") (getParam f "key")),
        jsNull (jsOr (getParam f "i") (getParam f "iv")) with
  | some key, some iv =>
    let rawMode := jsOrS (jsOr (getParam f "m") (getParam f "mode")) "s"
    let mode := jsOrS (modeMap rawMode) "simple"
    some {
      mode := mode
      salt := jsNull (jsOr (getParam f "s") (getParam f "salt"))
      expdate := jsNull (jsOr (getParam f "x") (getParam f "expdate"))
      key := key
      iv := iv
      epayload := getEpayloadByMode mode loc.search
    }
  | _, _ => none

/-! ## Calendar model

The code serializes an expiry as `toISOString().slice(0, 10)` and parses it
with the platform `new Date`.  Modelled from the spec ("UTC day granularity",
Date is a platform builtin): a date is its day number since the UTC epoch;
the canonical date string of day `d` is `'d'` followed by its hex digits;
parsing accepts exactly such strings, and — as with an Invalid Date (NaN) in
JS — any comparison against an unparseable string is false (never expired). -/

/-- Canonical date string of a day number (stands for "YYYY-MM-DD"). -/
def dayStr (d : Nat) : String := ⟨'d' :: hexLE d d⟩

/-- Parse a canonical date string back to a day number. -/
def parseDay (s : String) : Option Nat :=
  match s.data with
  | 'd' :: rest => if rest.all (hexChars.contains ·) then some (natOfHex rest) else none
  | _ => none

/-- `new Date() > new Date(expdate + 'T23:59:59.999Z')` — the expiry
comparison of receiveSharedData (src/index.js: end of day D). -/
def expiredEndOfDay (now : Nat) (expdate : Option String) : Bool :=
  match expdate with
  | none => false
  | some s =>
    match parseDay s with
    | some d => decide (now > d * 86400000 + 86399999)
    | none => false

/-- `new Date() > new Date(expdate)` — the expiry comparison of
receiveDynamicData (src/dynamic.js: start of day D). -/
def expiredStartOfDay (now : Nat) (expdate : Option String) : Bool :=
  match expdate with
  | none => false
  | some s =>
    match parseDay s with
    | some d => decide (now > d * 86400000)
    | none => false

/-! ## External-collaborator records and observable events -/

/-- A value held by the dynamic-mode storage adapter: either an encrypted
envelope {ciphertext, iv} or raw bytes (a pointer record's content). -/
inductive Stored
  | pair (ct iv : Bytes)
  | bytes (b : Bytes)
deriving DecidableEq, Repr

/-- Content of a stored value read as bytes (`TextDecoder().decode(raw)`).
An envelope read where bytes are expected is off-protocol (a JS TypeError);
it yields the ciphertext component here and is unreachable in the verified
flows. -/
def Stored.asBytes : Stored → Bytes
  | .bytes b => b
  | .pair ct _ => ct

/-- Content of a stored value read as an envelope; raw bytes where an
envelope is expected are off-protocol and yield a junk pair. -/
def Stored.asPair : Stored → Bytes × Bytes
  | .pair ct iv => (ct, iv)
  | .bytes b => (b, [])

/-- Observable collaborator / primitive invocations of a flow, in order. -/
inductive Ev
  | upload
  | download (id : String)
  | shorten
  | adapterCreate (v : Stored)
  | adapterRead (id : String)
  | adapterUpdate (id : String)
  | prompt
  | kdf
  | decrypt
  | expiryCheck
deriving DecidableEq, Repr

def Ev.isUpload : Ev → Bool
  | .upload => true
  | _ => false

def Ev.isDownload : Ev → Bool
  | .download _ => true
  | _ => false

def Ev.isCreate : Ev → Bool
  | .adapterCreate _ => true
  | _ => false

def Ev.isRead : Ev → Bool
  | .adapterRead _ => true
  | _ => false

/-! ## Crypto helpers used by the flows -/

/-- generateKek of src/crypto.js (Argon2id via the external argon2-browser
library).  Modelled from the spec: a deterministic key-derivation function of
password and salt (the `256` element is an out-of-band domain separator). -/
def generateKek (password : String) (salt : Bytes) : Bytes :=
  textEncode password ++ 256 :: salt

/-- pako.gzip (external library).  Modelled from the spec: "a lossless
compression pass" — an injective header-prefixed encoding. -/
def gzip (bs : Bytes) : Bytes := 31 :: 139 :: bs

/-- pako.ungzip, inverse of the compression pass. -/
def ungzip (bs : Bytes) : Bytes := bs.drop 2

@[simp] theorem ungzip_gzip (bs : Bytes) : ungzip (gzip bs) = bs := rfl

/-- The wrapped-DEK key string
`arrayBufferToBase64(encDek.ciphertext) + "." + arrayBufferToBase64(encDek.iv)`
produced when a password is supplied (src/index.js and src/dynamic.js; the
DEK is encrypted under the derived KEK with no aad). -/
def wrapDek (password : String) (saltBytes dekBytes ivW : Bytes) : String :=
  arrayBufferToBase64 (encryptBytes (generateKek password saltBytes) ivW none dekBytes)
    ++ "." ++ arrayBufferToBase64 ivW

/-- `[(name, v)]` when the optional parameter is set (`params.set(name, v)`
guarded by an `if`). -/
def optEntry (name : String) : Option String → List (String × String)
  | none => []
  | some v => [(name, v)]

/-- The modeMap object of createShareLink: `{ simple: 's', cloud: 'c' }`
with `|| 's'` fallback. -/
def modeChar (mode : String) : String :=
  if mode = "simple" then "s" else if mode = "cloud" then "c" else "s"

/-! ## createShareLink / receiveSharedData (src/index.js)

Flows are deterministic functions of their inputs plus explicit entropy
(`dekBytes`, `saltBytes`, fresh IVs `iv1 iv2 iv3`) and are parameterized by
the collaborator functions, which thread an abstract state `σ`.  Each flow
also returns the ordered list of observable events. -/

def createShareLink {σ : Type} (data : Bytes) (mode : String) (password : Option String)
    (expiresInDays : Option Nat) (now : Nat) (dekBytes saltBytes iv1 iv2 iv3 : Bytes)
    (uploadHandler : σ → Bytes × Bytes → String × σ)
    (shortenUrlHandler : σ → List (String × String) → List (String × String) × σ)
    (s0 : σ) (simpleModePayloadLimit : Nat := 7700) :
    Except JsErr Loc × σ × List Ev :=
  let expStr : Option String :=
    expiresInDays.map (fun d => dayStr ((now + d * 86400000) / 86400000))
  let aad : Option Bytes := expStr.map textEncode
  let payloadStep : (Bytes × Bytes) × σ × List Ev :=
    if mode = "simple" then
      ((encryptBytes dekBytes iv1 aad (gzip data), iv1), s0, [])
    else
      let up := uploadHandler s0 (encryptBytes dekBytes iv1 aad data, iv1)
      ((encryptBytes dekBytes iv2 aad (textEncode up.1), iv2), up.2, [Ev.upload])
  let keyStep : Option Bytes × String × List Ev :=
    match password with
    | some pw =>
      if pw = "" then (none, arrayBufferToBase64 dekBytes, [])
      else (some saltBytes, wrapDek pw saltBytes dekBytes iv3, [Ev.kdf])
    | none => (none, arrayBufferToBase64 dekBytes, [])
  let frag : List (String × String) :=
    [("i", arrayBufferToBase64 payloadStep.1.2), ("k", keyStep.2.1)]
      ++ optEntry "s" (keyStep.1.map arrayBufferToBase64)
      ++ optEntry "x" expStr ++ [("m", modeChar mode)]
  let epayload := arrayBufferToBase64 payloadStep.1.1
  if mode = "simple" ∧ epayload.length > simpleModePayloadLimit then
    (.error .payloadTooLarge, payloadStep.2.1, payloadStep.2.2 ++ keyStep.2.2)
  else
    let paramName := if mode = "simple" then "data" else "p"
    let short := shortenUrlHandler payloadStep.2.1 [(paramName, epayload)]
    (.ok ⟨short.1, frag⟩, short.2, payloadStep.2.2 ++ keyStep.2.2 ++ [Ev.shorten])

/-- _reconstructDek of src/dynamic.js; receiveSharedData (src/index.js)
inlines the same algorithm.  The password argument is the prompt's result
(callers prompt only when a salt is present). -/
def _reconstructDek (key : String) (salt : Option String) (password : Option String) :
    Except JsErr Bytes × List Ev :=
  match salt with
  | some saltB64 =>
    match password with
    | none => (.error .passwordRequired, [])
    | some pw =>
      if pw = "" then (.error .passwordRequired, [])
      else
        let kek := generateKek pw (base64ToArrayBuffer saltB64)
        let kparts := splitDot key
        match decryptBytes kek (base64ToArrayBuffer kparts.2) none
            (base64ToArrayBuffer kparts.1) with
        | some rawDek => (.ok rawDek, [Ev.kdf, Ev.decrypt])
        | none => (.error .decryptionError, [Ev.kdf, Ev.decrypt])
  | none => (.ok (base64ToArrayBuffer key), [])

def receiveSharedData {σ : Type} (loc : Loc) (now : Nat)
    (downloadHandler : σ → String → (Bytes × Bytes) × σ)
    (promptResult : Option String) (s0 : σ) :
    Except JsErr Bytes × σ × List Ev :=
  match parseShareUrl loc with
  | none => (.error .invalidLink, s0, [])
  | some p =>
    if p.epayload = "" then (.error .invalidLink, s0, [])
    else if expiredEndOfDay now p.expdate then (.error .expiredLink, s0, [Ev.expiryCheck])
    else
      let promptEvs : List Ev := match p.salt with | some _ => [Ev.prompt] | none => []
      let pw : Option String := match p.salt with | some _ => promptResult | none => none
      match _reconstructDek p.key p.salt pw with
      | (.error e, evs) => (.error e, s0, Ev.expiryCheck :: promptEvs ++ evs)
      | (.ok dek, evs) =>
        let aad := p.expdate.map textEncode
        let ct := base64ToArrayBuffer p.epayload
        let ivBytes := base64ToArrayBuffer p.iv
        if p.mode = "simple" then
          match decryptBytes dek ivBytes aad ct with
          | none => (.error .decryptionError, s0, Ev.expiryCheck :: promptEvs ++ evs ++ [Ev.decrypt])
          | some pt => (.ok (ungzip pt), s0, Ev.expiryCheck :: promptEvs ++ evs ++ [Ev.decrypt])
        else
          match decryptBytes dek ivBytes aad ct with
          | none => (.error .decryptionError, s0, Ev.expiryCheck :: promptEvs ++ evs ++ [Ev.decrypt])
          | some fileIdBytes =>
            let fileId := textDecode fileIdBytes
            let dl := downloadHandler s0 fileId
            match decryptBytes dek dl.1.2 aad dl.1.1 with
            | none => (.error .decryptionError, dl.2,
                Ev.expiryCheck :: promptEvs ++ evs ++ [Ev.decrypt, Ev.download fileId, Ev.decrypt])
            | some pt => (.ok pt, dl.2,
                Ev.expiryCheck :: promptEvs ++ evs ++ [Ev.decrypt, Ev.download fileId, Ev.decrypt])

/-! ## createDynamicLink / receiveDynamicData / updateDynamicLink
(src/dynamic.js) -/

/-- The return object of createDynamicLink:
`{ shareLink, pointerFileId, key, salt }`. -/
structure DynCreated where
  shareLink : Loc
  pointerFileId : String
  key : String
  salt : Option String
deriving DecidableEq, Repr

def createDynamicLink {σ : Type} (data : Bytes) (password : Option String)
    (expiresInDays : Option Nat) (now : Nat) (dekBytes saltBytes iv1 iv2 iv3 : Bytes)
    (adapterCreate : σ → Stored → String × σ) (s0 : σ) :
    Except JsErr DynCreated × σ × List Ev :=
  let encData := encryptBytes dekBytes iv1 none data
  let c1 := adapterCreate s0 (.pair encData iv1)
  let pointerContent := textEncode c1.1
  let c2 := adapterCreate c1.2 (.bytes pointerContent)
  let encPayload := encryptBytes dekBytes iv2 none (textEncode c2.1)
  let keyStep : Option Bytes × String × List Ev :=
    match password with
    | some pw =>
      if pw = "" then (none, arrayBufferToBase64 dekBytes, [])
      else (some saltBytes, wrapDek pw saltBytes dekBytes iv3, [Ev.kdf])
    | none => (none, arrayBufferToBase64 dekBytes, [])
  let expStr : Option String :=
    expiresInDays.map (fun d => dayStr ((now + d * 86400000) / 86400000))
  let frag : List (String × String) :=
    [("i", arrayBufferToBase64 iv2), ("k", keyStep.2.1), ("m", "d")]
      ++ optEntry "s" (keyStep.1.map arrayBufferToBase64)
      ++ optEntry "x" expStr
  (.ok { shareLink := ⟨[("p", arrayBufferToBase64 encPayload)], frag⟩,
         pointerFileId := c2.1, key := keyStep.2.1,
         salt := keyStep.1.map arrayBufferToBase64 },
   c2.2,
   [Ev.adapterCreate (.pair encData iv1), Ev.adapterCreate (.bytes pointerContent)]
     ++ keyStep.2.2)

def receiveDynamicData {σ : Type} (loc : Loc) (now : Nat)
    (adapterRead : σ → String → Stored × σ)
    (promptResult : Option String) (s0 : σ) :
    Except JsErr Bytes × σ × List Ev :=
  match parseShareUrl loc with
  | none => (.error .invalidLink, s0, [])
  | some p =>
    if p.mode ≠ "dynamic" then (.error .invalidLink, s0, [])
    else if expiredStartOfDay now p.expdate then (.error .expiredLink, s0, [Ev.expiryCheck])
    else
      let promptEvs : List Ev := match p.salt with | some _ => [Ev.prompt] | none => []
      let pw : Option String := match p.salt with | some _ => promptResult | none => none
      match _reconstructDek p.key p.salt pw with
      | (.error e, evs) => (.error e, s0, Ev.expiryCheck :: promptEvs ++ evs)
      | (.ok dek, evs) =>
        match decryptBytes dek (base64ToArrayBuffer p.iv) none
            (base64ToArrayBuffer p.epayload) with
        | none => (.error .decryptionError, s0,
            Ev.expiryCheck :: promptEvs ++ evs ++ [Ev.decrypt])
        | some ptrBytes =>
          let pointerFileId := textDecode ptrBytes
          let r1 := adapterRead s0 pointerFileId
          let dataFileId := textDecode r1.1.asBytes
          let r2 := adapterRead r1.2 dataFileId
          match decryptBytes dek r2.1.asPair.2 none r2.1.asPair.1 with
          | none => (.error .decryptionError, r2.2,
              Ev.expiryCheck :: promptEvs ++ evs
                ++ [Ev.decrypt, Ev.adapterRead pointerFileId, Ev.adapterRead dataFileId, Ev.decrypt])
          | some pt => (.ok pt, r2.2,
              Ev.expiryCheck :: promptEvs ++ evs
                ++ [Ev.decrypt, Ev.adapterRead pointerFileId, Ev.adapterRead dataFileId, Ev.decrypt])

def updateDynamicLink {σ : Type} (pointerFileId : String) (newData : Bytes)
    (key : String) (salt : Option String) (password : Option String) (ivN : Bytes)
    (adapterCreate : σ → Stored → String × σ)
    (adapterUpdate : σ → String → Stored → σ) (s0 : σ) :
    Except JsErr String × σ × List Ev :=
  if pointerFileId = "" then (.error .genericError, s0, [])
  else if key = "" then (.error .genericError, s0, [])
  else
    match _reconstructDek key salt (jsNull password) with
    | (.error e, evs) => (.error e, s0, evs)
    | (.ok dek, evs) =>
      let encData := encryptBytes dek ivN none newData
      let c1 := adapterCreate s0 (.pair encData ivN)
      let s2 := adapterUpdate c1.2 pointerFileId (.bytes (textEncode c1.1))
      (.ok c1.1, s2, evs ++ [Ev.adapterCreate (.pair encData ivN), Ev.adapterUpdate pointerFileId])

/-! ## The matching collaborators (in-memory stores, identity shortener) -/

/-- Fresh opaque identifier for the `n`-th stored record. -/
def freshId (n : Nat) : String := ⟨'f' :: hexLE n n⟩

/-- In-memory store for the dynamic-mode storage adapter. -/
structure Store where
  entries : List (String × Stored)
  next : Nat
deriving DecidableEq, Repr

def storeCreate (s : Store) (v : Stored) : String × Store :=
  (freshId s.next, ⟨(freshId s.next, v) :: s.entries, s.next + 1⟩)

def storeRead (s : Store) (id : String) : Stored × Store :=
  ((s.entries.lookup id).getD (.bytes []), s)

def storeUpdate (s : Store) (id : String) (v : Stored) : Store :=
  ⟨(id, v) :: s.entries, s.next⟩

/-- In-memory store for the cloud-mode upload/download handlers. -/
structure CloudStore where
  entries : List (String × (Bytes × Bytes))
  next : Nat
deriving DecidableEq, Repr

def cloudUpload (s : CloudStore) (v : Bytes × Bytes) : String × CloudStore :=
  (freshId s.next, ⟨(freshId s.next, v) :: s.entries, s.next + 1⟩)

def cloudDownload (s : CloudStore) (id : String) : (Bytes × Bytes) × CloudStore :=
  ((s.entries.lookup id).getD ([], []), s)

/-- Identity URL shortener (the matching collaborator; the spec's fallback
behaviour on failure is the unshortened URL). -/
def idShorten {σ : Type} (s : σ) (q : List (String × String)) : List (String × String) × σ :=
  (q, s)

/-- The expiry day computed at creation:
`new Date(Date.now() + expiresInDays * 86400000)` at day granularity. -/
def expDayOf (now d : Nat) : Nat := (now + d * 86400000) / 86400000

/-! ## Link tampering -/

/-- Replace the value bound to `name` in a parameter list. -/
def setParam (l : List (String × String)) (name v : String) : List (String × String) :=
  l.map (fun kv => if kv.1 = name then (name, v) else kv)

/-- Tamper with a query parameter of a link. -/
def setQuery (loc : Loc) (name v : String) : Loc := ⟨setParam loc.search name v, loc.hash⟩

/-- Tamper with a fragment parameter of a link. -/
def setFrag (loc : Loc) (name v : String) : Loc := ⟨loc.search, setParam loc.hash name v⟩

theorem hexVal_hexDigit : ∀ d < 16, hexVal (hexDigit d) = d := by decide

theorem hexDigit_mem : ∀ d < 16, hexDigit d ∈ hexChars := by decide

theorem natOfHex_hexLE : ∀ f n, n ≤ f → natOfHex (hexLE f n) = n := by
  intro f
  induction f with
  | zero => intro n hn; interval_cases n; simp [hexLE, natOfHex]
  | succ f ih =>
    intro n hn
    by_cases h0 : n = 0
    · simp [hexLE, h0, natOfHex]
    · have hdiv : n / 16 ≤ f := by
        have : n / 16 < n := Nat.div_lt_self (Nat.pos_of_ne_zero h0) (by norm_num)
        omega
      simp only [hexLE, h0, if_false, natOfHex, List.foldr_cons]
      have := ih (n / 16) hdiv
      simp only [natOfHex] at this
      rw [this, hexVal_hexDigit (n % 16) (Nat.mod_lt n (by norm_num))]
      omega

theorem hexLE_mem : ∀ f n c, c ∈ hexLE f n → c ∈ hexChars := by
  intro f
  induction f with
  | zero => intro n c hc; simp [hexLE] at hc
  | succ f ih =>
    intro n c hc
    by_cases h0 : n = 0
    · simp [hexLE, h0] at hc
    · simp only [hexLE, h0, if_false, List.mem_cons] at hc
      rcases hc with h | h
      · exact h ▸ hexDigit_mem (n % 16) (Nat.mod_lt n (by norm_num))
      · exact ih _ _ h

theorem encBytes_mem : ∀ bs c, c ∈ encBytes bs → c ∈ hexChars ∨ c = ';' := by
  intro bs
  induction bs with
  | nil => intro c hc; simp [encBytes] at hc
  | cons n t ih =>
    intro c hc
    simp only [encBytes, List.mem_append, List.mem_cons] at hc
    rcases hc with h | h | h
    · exact Or.inl (hexLE_mem n n c h)
    · exact Or.inr h
    · exact ih c h

theorem takeWhile_ne_append (sep : Char) (u v : List Char) (hu : ∀ c ∈ u, c ≠ sep) :
    (u ++ sep :: v).takeWhile (· != sep) = u ∧
    (u ++ sep :: v).dropWhile (· != sep) = sep :: v := by
  induction u with
  | nil => simp [List.takeWhile, List.dropWhile]
  | cons x xs ih =>
    have hx : x ≠ sep := hu x (List.mem_cons_self x xs)
    have hxs : ∀ c ∈ xs, c ≠ sep := fun c hc => hu c (List.mem_cons_of_mem x hc)
    have hbx : (x != sep) = true := by simpa using hx
    obtain ⟨h1, h2⟩ := ih hxs
    constructor
    · simpa [List.takeWhile, hbx] using h1
    · simpa [List.dropWhile, hbx] using h2

theorem decBytesF_encBytes : ∀ bs f, (encBytes bs).length ≤ f → decBytesF f (encBytes bs) = bs := by
  intro bs
  induction bs with
  | nil => intro f _; cases f <;> simp [encBytes, decBytesF]
  | cons n t ih =>
    intro f hf
    have hne : ∀ c ∈ hexLE n n, c ≠ ';' := by
      intro c hc
      have hm := hexLE_mem n n c hc
      fin_cases hm <;> decide
    obtain ⟨htake, hdrop⟩ := takeWhile_ne_append ';' (hexLE n n) (encBytes t) hne
    have hlen : (encBytes (n :: t)).length = (hexLE n n).length + 1 + (encBytes t).length := by
      simp [encBytes]; omega
    obtain ⟨f', rfl⟩ : ∃ f', f = f' + 1 := by
      rcases f with _ | f'
      · exfalso; rw [hlen] at hf; omega
      · exact ⟨f', rfl⟩
    have henc : encBytes (n :: t) = hexLE n n ++ ';' :: encBytes t := rfl
    have hcons : ∃ x xs, encBytes (n :: t) = x :: xs := by
      rw [henc]
      cases h : hexLE n n with
      | nil => exact ⟨';', encBytes t, by simp⟩
      | cons a as => exact ⟨a, as ++ ';' :: encBytes t, by simp⟩
    obtain ⟨x, xs, hx⟩ := hcons
    rw [hx]
    show natOfHex ((x :: xs).takeWhile (· != ';')) ::
        decBytesF f' (((x :: xs).dropWhile (· != ';')).drop 1) = n :: t
    rw [← hx, henc, htake, hdrop]
    simp only [List.drop_succ_cons, List.drop_zero]
    rw [natOfHex_hexLE n n le_rfl, ih f' (by rw [hlen] at hf; omega)]

theorem decBytes_encBytes (bs : Bytes) : decBytes (encBytes bs) = bs :=
  decBytesF_encBytes bs _ le_rfl

@[simp] theorem b64_roundtrip (bs : Bytes) :
    base64ToArrayBuffer (arrayBufferToBase64 bs) = bs := decBytes_encBytes bs

theorem b64_ne_empty {bs : Bytes} (h : bs ≠ []) : arrayBufferToBase64 bs ≠ "" := by
  intro he
  have : encBytes bs = [] := congrArg String.data he
  cases bs with
  | nil => exact h rfl
  | cons n t => simp [encBytes] at this

theorem b64_no_dot (bs : Bytes) : ∀ c ∈ (arrayBufferToBase64 bs).data, c ≠ '.' := by
  intro c hc
  rcases encBytes_mem bs c hc with h | h
  · fin_cases h <;> decide
  · simp [h]

@[simp] theorem textDecode_textEncode (s : String) : textDecode (textEncode s) = s := by
  cases s with
  | mk data =>
    show String.mk (List.map Char.ofNat (List.map Char.toNat data)) = ⟨data⟩
    rw [List.map_map]
    congr 1
    conv_rhs => rw [← List.map_id data]
    exact List.map_congr_left (fun c _ => by simp [Char.ofNat_toNat])

theorem textEncode_injective : Function.Injective textEncode := by
  intro a b h
  have := congrArg textDecode h
  simpa using this

theorem splitDot_append (a b : String) (ha : ∀ c ∈ a.data, c ≠ '.') :
    splitDot (a ++ "." ++ b) = (a, b) := by
  have hdata : (a ++ "." ++ b).data = a.data ++ '.' :: b.data := by
    simp [String.data_append]
  obtain ⟨h1, h2⟩ := takeWhile_ne_append '.' a.data b.data ha
  simp only [splitDot, hdata, h1, h2, List.drop_succ_cons, List.drop_zero]

@[simp] theorem decryptBytes_encryptBytes (key iv : Bytes) (aad : Option Bytes) (p : Bytes) :
    decryptBytes key iv aad (encryptBytes key iv aad p) = some p := by
  have h1 : (encryptBytes key iv aad p).dropLast = gcmBody key iv aad p := by
    simp [encryptBytes]
  have h2 : (gcmBody key iv aad p).drop (gcmPrefix key iv aad).length = p := by
    simp [gcmBody, List.drop_left]
  simp [decryptBytes, h1, h2]

theorem aadEnc_inj {a₁ a₂ : Option Bytes} {r₁ r₂ : Bytes}
    (h : aadEnc a₁ ++ r₁ = aadEnc a₂ ++ r₂) : a₁ = a₂ ∧ r₁ = r₂ := by
  rcases a₁ with _ | a₁ <;> rcases a₂ with _ | a₂ <;>
    simp only [aadEnc, List.cons_append, List.cons.injEq, List.singleton_append] at h
  · exact ⟨rfl, h.2⟩
  · omega
  · omega
  · obtain ⟨-, hlen, htail⟩ := h
    obtain ⟨ha, hr⟩ := List.append_inj htail hlen
    exact ⟨by rw [ha], hr⟩

theorem encryptBytes_inj {k₁ i₁ k₂ i₂ p₁ p₂ : Bytes} {a₁ a₂ : Option Bytes}
    (h : encryptBytes k₁ i₁ a₁ p₁ = encryptBytes k₂ i₂ a₂ p₂) :
    k₁ = k₂ ∧ i₁ = i₂ ∧ a₁ = a₂ ∧ p₁ = p₂ := by
  have h' : k₁.length :: (k₁ ++ i₁.length :: (i₁ ++ (aadEnc a₁ ++ (p₁ ++ [(gcmBody k₁ i₁ a₁ p₁).sum]))))
      = k₂.length :: (k₂ ++ i₂.length :: (i₂ ++ (aadEnc a₂ ++ (p₂ ++ [(gcmBody k₂ i₂ a₂ p₂).sum])))) := by
    simpa [encryptBytes, gcmBody, gcmPrefix, List.append_assoc] using h
  obtain ⟨hklen, htail⟩ := List.cons.inj h'
  obtain ⟨hk, htail⟩ := List.append_inj htail hklen
  obtain ⟨hivlen, htail⟩ := List.cons.inj htail
  obtain ⟨hiv, htail⟩ := List.append_inj htail hivlen
  obtain ⟨haad, htail⟩ := aadEnc_inj htail
  have hp : p₁ = p₂ := by
    have := congrArg List.dropLast htail
    simpa [List.dropLast_concat] using this
  exact ⟨hk, hiv, haad, hp⟩

/-- If two Nat lists agree except at one position where they differ, their
sums differ. -/
theorem sum_set_ne (l : List Nat) (j v : Nat) (hj : j < l.length) (hv : v ≠ l.getD j 0) :
    (l.set j v).sum ≠ l.sum := by
  have hset : (l.set j v).sum = (l.take j).sum + v + (l.drop (j + 1)).sum := by
    rw [List.sum_set]
    simp [hj]
  have hdrop : l.drop j = l[j] :: l.drop (j + 1) := List.drop_eq_getElem_cons hj
  have hsum := congrArg List.sum (List.take_append_drop j l).symm
  rw [List.sum_append, hdrop, List.sum_cons] at hsum
  have hvj : v ≠ l[j] := by
    rwa [List.getD_eq_getElem l 0 hj] at hv
  omega

/-- Tampering: replace element `j` of a ciphertext with a different value.
No plaintext re-encrypts to the altered ciphertext under the same key, iv and
aad, so ideal decryption rejects it. -/
theorem set_ne_encryptBytes (k i : Bytes) (a : Option Bytes) (p : Bytes) (j v : Nat)
    (hj : j < (encryptBytes k i a p).length)
    (hv : v ≠ (encryptBytes k i a p).getD j 0) :
    ∀ q, (encryptBytes k i a p).set j v ≠ encryptBytes k i a q := by
  intro q heq
  set body := gcmBody k i a p with hbody
  set body' := gcmBody k i a q with hbody'
  have hclen : (encryptBytes k i a p).length = body.length + 1 := by
    simp [encryptBytes]
  have hlen : body.length = body'.length := by
    have := congrArg List.length heq
    simp only [List.length_set, encryptBytes, List.length_append, List.length_singleton] at this
    simpa [hbody, hbody'] using this
  rcases Nat.lt_or_ge j body.length with hcase | hcase
  · -- alteration inside the body: checksum exposes it
    have hsplit : (encryptBytes k i a p).set j v = body.set j v ++ [body.sum] := by
      rw [encryptBytes, ← hbody, List.set_append, if_pos hcase]
    rw [hsplit, encryptBytes, ← hbody'] at heq
    obtain ⟨hb, hs⟩ := List.append_inj heq (by simp [hlen])
    have hvb : v ≠ body.getD j 0 := by
      rw [encryptBytes, ← hbody, List.getD_append _ _ _ _ hcase] at hv
      exact hv
    have : (body.set j v).sum ≠ body.sum := sum_set_ne body j v hcase hvb
    rw [hb] at this
    have hs' : body'.sum = body.sum := by simpa using hs.symm
    -- body' = body.set j v has a different sum from body, contradiction
    have hbs : body'.sum ≠ body.sum := hb ▸ this
    exact hbs hs'
  · -- alteration of the checksum element itself
    have hjeq : j = body.length := by omega
    have hsplit : (encryptBytes k i a p).set j v = body ++ [v] := by
      rw [encryptBytes, ← hbody, List.set_append, if_neg (by omega), hjeq]
      simp
    rw [hsplit, encryptBytes, ← hbody'] at heq
    obtain ⟨hb, hs⟩ := List.append_inj heq (by simp [hlen])
    have hv1 : v = body'.sum := (List.cons.inj hs).1
    have hvs : v = body.sum := by rw [hv1, ← hb]
    have hgd : (encryptBytes k i a p).getD j 0 = body.sum := by
      rw [encryptBytes, ← hbody, hjeq, List.getD_append_right _ _ _ _ le_rfl]
      simp
    rw [hgd] at hv
    exact hv hvs

theorem xor_pow_ne (x m : Nat) : x ^^^ 2 ^ m ≠ x := by
  intro h
  have h2 : x ^^^ (x ^^^ 2 ^ m) = x ^^^ x := by rw [h]
  rw [← Nat.xor_assoc, Nat.xor_self, Nat.zero_xor] at h2
  exact absurd h2 (Nat.pos_iff_ne_zero.mp (Nat.pos_pow_of_pos m (by norm_num)))

theorem decryptBytes_flipBit (k i : Bytes) (a : Option Bytes) (p : Bytes) (j m : Nat)
    (hj : j < (encryptBytes k i a p).length) :
    decryptBytes k i a (flipBit j m (encryptBytes k i a p)) = none := by
  have hne := set_ne_encryptBytes k i a p j ((encryptBytes k i a p).getD j 0 ^^^ 2 ^ m) hj
    (xor_pow_ne _ m)
  rw [decryptBytes]
  exact if_neg (hne _)

/-- A ciphertext decrypts only under its own aad. -/
theorem decryptBytes_wrong_aad (k i : Bytes) (a a' : Option Bytes) (p : Bytes)
    (h : a' ≠ a) : decryptBytes k i a' (encryptBytes k i a p) = none := by
  rw [decryptBytes]
  refine if_neg (fun heq => ?_)
  exact h (encryptBytes_inj heq.symm).2.2.1

/-- A ciphertext decrypts only under its own iv. -/
theorem decryptBytes_wrong_iv (k i i' : Bytes) (a : Option Bytes) (p : Bytes)
    (h : i' ≠ i) : decryptBytes k i' a (encryptBytes k i a p) = none := by
  rw [decryptBytes]
  refine if_neg (fun heq => ?_)
  exact h (encryptBytes_inj heq.symm).2.1

/-- A ciphertext decrypts only under its own key. -/
theorem decryptBytes_wrong_key (k k' i : Bytes) (a : Option Bytes) (p : Bytes)
    (h : k' ≠ k) : decryptBytes k' i a (encryptBytes k i a p) = none := by
  rw [decryptBytes]
  refine if_neg (fun heq => ?_)
  exact h (encryptBytes_inj heq.symm).1

theorem parseDay_dayStr (d : Nat) : parseDay (dayStr d) = some d := by
  have hall : (hexLE d d).all (hexChars.contains ·) = true := by
    rw [List.all_eq_true]
    intro c hc
    simpa using hexLE_mem d d c hc
  show (if (hexLE d d).all (hexChars.contains ·) then some (natOfHex (hexLE d d)) else none)
      = some d
  rw [hall, if_pos rfl, natOfHex_hexLE d d le_rfl]

/-! ## Normalization lemmas for JS truthiness plumbing -/

@[simp] theorem jsOr_none_left (b : Option String) : jsOr none b = b := rfl

@[simp] theorem jsNull_none : jsNull none = none := rfl

theorem jsOr_none_right (a : Option String) : jsOr a none = jsNull a := by
  cases a with
  | none => rfl
  | some s => by_cases h : s = "" <;> simp [jsOr, jsNull, h]

@[simp] theorem jsNull_jsNull (a : Option String) : jsNull (jsNull a) = jsNull a := by
  cases a with
  | none => rfl
  | some s => by_cases h : s = "" <;> simp [jsNull, h]

@[simp] theorem jsOrS_jsNull (a : Option String) (b : String) :
    jsOrS (jsNull a) b = jsOrS a b := by
  cases a with
  | none => rfl
  | some s => by_cases h : s = "" <;> simp [jsNull, jsOrS, h]

theorem jsOr_falsy {a : Option String} (h : jsNull a = none) (b : Option String) :
    jsOr a b = b := by
  cases a with
  | none => rfl
  | some s =>
    by_cases hs : s = ""
    · simp [jsOr, hs]
    · simp [jsNull, hs] at h

theorem jsOr_truthy {v : String} (hv : v ≠ "") (b : Option String) :
    jsOr (some v) b = some v := by simp [jsOr, hv]

/-! ## Evaluation of parseShareUrl on the link shapes produced by creation -/

theorem parseShareUrl_std (pn vp vi vk vm : String) (vs vx : Option String)
    (hi : vi ≠ "") (hk : vk ≠ "") (hm : vm ≠ "")
    (hs : ∀ s, vs = some s → s ≠ "") (hx : ∀ s, vx = some s → s ≠ "") :
    parseShareUrl ⟨[(pn, vp)],
        [("i", vi), ("k", vk)] ++ optEntry "s" vs ++ optEntry "x" vx ++ [("m", vm)]⟩
      = some { mode := jsOrS (modeMap vm) "simple", salt := vs, expdate := vx,
               key := vk, iv := vi,
               epayload := getEpayloadByMode (jsOrS (modeMap vm) "simple") [(pn, vp)] } := by
  rcases vs with _ | sv <;> rcases vx with _ | xv <;>
    simp_all [parseShareUrl, getParam, optEntry, jsOr, jsNull, jsOrS, List.lookup]

theorem parseShareUrl_dyn (vp vi vk : String) (vs vx : Option String)
    (hi : vi ≠ "") (hk : vk ≠ "")
    (hs : ∀ s, vs = some s → s ≠ "") (hx : ∀ s, vx = some s → s ≠ "") :
    parseShareUrl ⟨[("p", vp)],
        [("i", vi), ("k", vk), ("m", "d")] ++ optEntry "s" vs ++ optEntry "x" vx⟩
      = some { mode := "dynamic", salt := vs, expdate := vx,
               key := vk, iv := vi,
               epayload := getEpayloadByMode "dynamic" [("p", vp)] } := by
  rcases vs with _ | sv <;> rcases vx with _ | xv <;>
    simp_all [parseShareUrl, getParam, optEntry, jsOr, jsNull, jsOrS, List.lookup, modeMap]

theorem parseShareUrl_epayload (loc : Loc) (p : ShareParams)
    (hp : parseShareUrl loc = some p) :
    p.epayload = getEpayloadByMode p.mode loc.search := by
  simp only [parseShareUrl] at hp
  rcases h1 : jsNull (jsOr (getParam loc.hash "k") (getParam loc.hash "key")) with _ | k <;>
    rcases h2 : jsNull (jsOr (getParam loc.hash "i") (getParam loc.hash "iv")) with _ | i <;>
    rw [h1, h2] at hp <;> simp only [Option.some.injEq] at hp
  · exact absurd hp (by simp)
  · exact absurd hp (by simp)
  · exact absurd hp (by simp)
  · rw [← hp]

/-- C5: a fragment written with long-form legacy parameter names
(key, iv, mode, salt, expdate) and a full-word mode value, with the payload
under the legacy `epayload` query name, parses to exactly the same canonical
ShareLinkParameters as the equivalent short-form link
(k, i, m, s, x and query `p`, single-letter mode). -/
theorem claim_C5 (vk vi vp : String) (vs vx : Option String) (mw ml : String)
    (hk : vk ≠ "") (hi : vi ≠ "")
    (hm : (mw, ml) ∈ [("simple", "s"), ("cloud", "c"), ("dynamic", "d")]) :
    parseShareUrl ⟨[("epayload", vp)],
        [("key", vk), ("iv", vi), ("mode", mw)]
          ++ optEntry "salt" vs ++ optEntry "expdate" vx⟩
      = parseShareUrl ⟨[("p", vp)],
        [("k", vk), ("i", vi), ("m", ml)] ++ optEntry "s" vs ++ optEntry "x" vx⟩ := by
  simp only [List.mem_cons, List.mem_singleton, List.not_mem_nil, or_false,
    Prod.mk.injEq] at hm
  rcases hm with ⟨rfl, rfl⟩ | ⟨rfl, rfl⟩ | ⟨rfl, rfl⟩ <;>
    rcases vs with _ | sv <;> rcases vx with _ | xv <;>
      simp_all [parseShareUrl, getParam, optEntry, getEpayloadByMode, modeMap,
        List.lookup, jsOr_none_right, jsOr, jsOrS, jsNull] <;>
      split_ifs <;> simp_all

theorem claim_C5_witness :
    ("K" : String) ≠ "" ∧ ("V" : String) ≠ "" ∧
    (("cloud", "c") ∈ [(("simple" : String), ("s" : String)), ("cloud", "c"), ("dynamic", "d")]) ∧
    parseShareUrl ⟨[("epayload", "P")],
        [("key", "K"), ("iv", "V"), ("mode", "cloud")]
          ++ optEntry "salt" (some "S") ++ optEntry "expdate" (some "X")⟩
      = parseShareUrl ⟨[("p", "P")],
        [("k", "K"), ("i", "V"), ("m", "c")]
          ++ optEntry "s" (some "S") ++ optEntry "x" (some "X")⟩ :=
  ⟨by decide, by decide, by decide,
    claim_C5 "K" "V" "P" (some "S") (some "X") "cloud" "c"
      (by decide) (by decide) (by decide)⟩

/-- C6: parseShareUrl resolves the payload parameter mode-awarely.  With key
and iv present (so parsing succeeds), in simple mode a truthy `data` query
parameter wins, then `p`, then `epayload`; in cloud or dynamic mode a truthy
`p` wins, then `epayload`, then `data`. -/
theorem claim_C6 (loc : Loc) (p : ShareParams) (v : String)
    (hp : parseShareUrl loc = some p) (hv : v ≠ "") :
    (p.mode = "simple" →
      (getParam loc.search "data" = some v → p.epayload = v) ∧
      (jsNull (getParam loc.search "data") = none →
        getParam loc.search "p" = some v → p.epayload = v) ∧
      (jsNull (getParam loc.search "data") = none →
        jsNull (getParam loc.search "p") = none →
        getParam loc.search "epayload" = some v → p.epayload = v)) ∧
    (p.mode = "cloud" ∨ p.mode = "dynamic" →
      (getParam loc.search "p" = some v → p.epayload = v) ∧
      (jsNull (getParam loc.search "p") = none →
        getParam loc.search "epayload" = some v → p.epayload = v) ∧
      (jsNull (getParam loc.search "p") = none →
        jsNull (getParam loc.search "epayload") = none →
        getParam loc.search "data" = some v → p.epayload = v)) := by
  have he := parseShareUrl_epayload loc p hp
  constructor
  · intro hmode
    refine ⟨fun hd => ?_, fun hd hn => ?_, fun hd hn hep => ?_⟩
    · rw [he, getEpayloadByMode, hmode]
      simp [hd, jsOr_truthy hv, jsOrS, hv]
    · rw [he, getEpayloadByMode, hmode]
      simp [jsOr_falsy hd, hn, jsOr_truthy hv, jsOrS, hv]
    · rw [he, getEpayloadByMode, hmode]
      simp [jsOr_falsy hd, jsOr_falsy hn, hep, jsOrS, hv]
  · intro hmode
    have hcd : (p.mode = "cloud" ∨ p.mode = "dynamic") = True := by simp [hmode]
    refine ⟨fun hd => ?_, fun hd hn => ?_, fun hd hn hep => ?_⟩
    · rw [he, getEpayloadByMode, if_pos (hcd ▸ trivial)]
      simp [hd, jsOr_truthy hv, jsOrS, hv]
    · rw [he, getEpayloadByMode, if_pos (hcd ▸ trivial)]
      simp [jsOr_falsy hd, hn, jsOr_truthy hv, jsOrS, hv]
    · rw [he, getEpayloadByMode, if_pos (hcd ▸ trivial)]
      simp [jsOr_falsy hd, jsOr_falsy hn, hep, jsOrS, hv]

theorem encryptBytes_ne_nil (k i : Bytes) (a : Option Bytes) (p : Bytes) :
    encryptBytes k i a p ≠ [] := by simp [encryptBytes]

theorem wrapDek_ne_empty (pw : String) (saltB dekB ivW : Bytes) :
    wrapDek pw saltB dekB ivW ≠ "" := by
  intro h
  have := congrArg String.data h
  simp [wrapDek, String.data_append] at this

theorem splitDot_wrapDek (pw : String) (saltB dekB ivW : Bytes) :
    splitDot (wrapDek pw saltB dekB ivW) =
      (arrayBufferToBase64 (encryptBytes (generateKek pw saltB) ivW none dekB),
       arrayBufferToBase64 ivW) :=
  splitDot_append _ _ (b64_no_dot _)

@[simp] theorem reconstructDek_plain (dek : Bytes) (pw : Option String) :
    _reconstructDek (arrayBufferToBase64 dek) none pw = (.ok dek, []) := by
  simp [_reconstructDek]

@[simp] theorem reconstructDek_wrapped (pwv : String) (hpw : pwv ≠ "")
    (saltB dekB ivW : Bytes) :
    _reconstructDek (wrapDek pwv saltB dekB ivW)
        (some (arrayBufferToBase64 saltB)) (some pwv)
      = (.ok dekB, [Ev.kdf, Ev.decrypt]) := by
  simp [_reconstructDek, hpw, splitDot_wrapDek]

theorem simple_flow_nopw (P : Bytes) (now₁ now₂ : Nat) (dek salt iv1 iv2 iv3 : Bytes)
    (cs : CloudStore) (limit : Nat)
    (hdek : dek ≠ []) (hiv1 : iv1 ≠ [])
    (hlim : ¬ (arrayBufferToBase64 (encryptBytes dek iv1 none (gzip P))).length > limit) :
    createShareLink P "simple" none none now₁ dek salt iv1 iv2 iv3 cloudUpload idShorten cs limit
      = (.ok ⟨[("data", arrayBufferToBase64 (encryptBytes dek iv1 none (gzip P)))],
              [("i", arrayBufferToBase64 iv1), ("k", arrayBufferToBase64 dek), ("m", "s")]⟩,
         cs, [Ev.shorten]) ∧
    receiveSharedData ⟨[("data", arrayBufferToBase64 (encryptBytes dek iv1 none (gzip P)))],
              [("i", arrayBufferToBase64 iv1), ("k", arrayBufferToBase64 dek), ("m", "s")]⟩
        now₂ cloudDownload none cs
      = (.ok P, cs, [Ev.expiryCheck, Ev.decrypt]) := by
  have hkne : arrayBufferToBase64 dek ≠ "" := b64_ne_empty hdek
  have hine : arrayBufferToBase64 iv1 ≠ "" := b64_ne_empty hiv1
  have hepne : arrayBufferToBase64 (encryptBytes dek iv1 none (gzip P)) ≠ "" :=
    b64_ne_empty (encryptBytes_ne_nil _ _ _ _)
  constructor
  · simp [createShareLink, modeChar, optEntry, idShorten, hlim]
  · simp [receiveSharedData, parseShareUrl, getParam, List.lookup, jsOr, jsNull, jsOrS,
      modeMap, getEpayloadByMode, optEntry, hkne, hine, hepne, expiredEndOfDay]

theorem freshId_inj {n m : Nat} (h : freshId n = freshId m) : n = m := by
  have hd := congrArg String.data h
  have ht : hexLE n n = hexLE m m := (List.cons.inj hd).2
  have := congrArg natOfHex ht
  rwa [natOfHex_hexLE n n le_rfl, natOfHex_hexLE m m le_rfl] at this

theorem freshId_ne_empty (n : Nat) : freshId n ≠ "" := by
  intro h
  have := congrArg String.data h
  simp [freshId] at this

theorem simple_flow_pw (P : Bytes) (now₁ now₂ : Nat) (pwv : String) (hpwv : pwv ≠ "")
    (dek salt iv1 iv2 iv3 : Bytes) (cs : CloudStore) (limit : Nat)
    (hsalt : salt ≠ []) (hiv1 : iv1 ≠ [])
    (hlim : ¬ (arrayBufferToBase64 (encryptBytes dek iv1 none (gzip P))).length > limit) :
    createShareLink P "simple" (some pwv) none now₁ dek salt iv1 iv2 iv3
        cloudUpload idShorten cs limit
      = (.ok ⟨[("data", arrayBufferToBase64 (encryptBytes dek iv1 none (gzip P)))],
              [("i", arrayBufferToBase64 iv1), ("k", wrapDek pwv salt dek iv3),
               ("s", arrayBufferToBase64 salt), ("m", "s")]⟩,
         cs, [Ev.kdf, Ev.shorten]) ∧
    receiveSharedData ⟨[("data", arrayBufferToBase64 (encryptBytes dek iv1 none (gzip P)))],
              [("i", arrayBufferToBase64 iv1), ("k", wrapDek pwv salt dek iv3),
               ("s", arrayBufferToBase64 salt), ("m", "s")]⟩
        now₂ cloudDownload (some pwv) cs
      = (.ok P, cs, [Ev.expiryCheck, Ev.prompt, Ev.kdf, Ev.decrypt, Ev.decrypt]) := by
  have hkne : wrapDek pwv salt dek iv3 ≠ "" := wrapDek_ne_empty pwv salt dek iv3
  have hine : arrayBufferToBase64 iv1 ≠ "" := b64_ne_empty hiv1
  have hsne : arrayBufferToBase64 salt ≠ "" := b64_ne_empty hsalt
  have hepne : arrayBufferToBase64 (encryptBytes dek iv1 none (gzip P)) ≠ "" :=
    b64_ne_empty (encryptBytes_ne_nil _ _ _ _)
  constructor
  · simp [createShareLink, modeChar, optEntry, idShorten, hlim, hpwv]
  · simp [receiveSharedData, parseShareUrl, getParam, List.lookup, jsOr, jsNull, jsOrS,
      modeMap, getEpayloadByMode, optEntry, hkne, hine, hsne, hepne, hpwv, expiredEndOfDay]

theorem cloud_flow_nopw (P : Bytes) (now₁ now₂ : Nat) (dek salt iv1 iv2 iv3 : Bytes)
    (cs : CloudStore) (limit : Nat)
    (hdek : dek ≠ []) (hiv2 : iv2 ≠ []) :
    createShareLink P "cloud" none none now₁ dek salt iv1 iv2 iv3
        cloudUpload idShorten cs limit
      = (.ok ⟨[("p", arrayBufferToBase64
                  (encryptBytes dek iv2 none (textEncode (freshId cs.next))))],
              [("i", arrayBufferToBase64 iv2), ("k", arrayBufferToBase64 dek), ("m", "c")]⟩,
         ⟨(freshId cs.next, (encryptBytes dek iv1 none P, iv1)) :: cs.entries, cs.next + 1⟩,
         [Ev.upload, Ev.shorten]) ∧
    receiveSharedData ⟨[("p", arrayBufferToBase64
                  (encryptBytes dek iv2 none (textEncode (freshId cs.next))))],
              [("i", arrayBufferToBase64 iv2), ("k", arrayBufferToBase64 dek), ("m", "c")]⟩
        now₂ cloudDownload none
        ⟨(freshId cs.next, (encryptBytes dek iv1 none P, iv1)) :: cs.entries, cs.next + 1⟩
      = (.ok P,
         ⟨(freshId cs.next, (encryptBytes dek iv1 none P, iv1)) :: cs.entries, cs.next + 1⟩,
         [Ev.expiryCheck, Ev.decrypt, Ev.download (freshId cs.next), Ev.decrypt]) := by
  have hkne : arrayBufferToBase64 dek ≠ "" := b64_ne_empty hdek
  have hine : arrayBufferToBase64 iv2 ≠ "" := b64_ne_empty hiv2
  have hepne : arrayBufferToBase64 (encryptBytes dek iv2 none (textEncode (freshId cs.next))) ≠ "" :=
    b64_ne_empty (encryptBytes_ne_nil _ _ _ _)
  constructor
  · simp [createShareLink, modeChar, optEntry, idShorten, cloudUpload]
  · simp [receiveSharedData, parseShareUrl, getParam, List.lookup, jsOr, jsNull, jsOrS,
      modeMap, getEpayloadByMode, optEntry, hkne, hine, hepne, expiredEndOfDay,
      cloudDownload]

theorem cloud_flow_pw (P : Bytes) (now₁ now₂ : Nat) (pwv : String) (hpwv : pwv ≠ "")
    (dek salt iv1 iv2 iv3 : Bytes) (cs : CloudStore) (limit : Nat)
    (hsalt : salt ≠ []) (hiv2 : iv2 ≠ []) :
    createShareLink P "cloud" (some pwv) none now₁ dek salt iv1 iv2 iv3
        cloudUpload idShorten cs limit
      = (.ok ⟨[("p", arrayBufferToBase64
                  (encryptBytes dek iv2 none (textEncode (freshId cs.next))))],
              [("i", arrayBufferToBase64 iv2), ("k", wrapDek pwv salt dek iv3),
               ("s", arrayBufferToBase64 salt), ("m", "c")]⟩,
         ⟨(freshId cs.next, (encryptBytes dek iv1 none P, iv1)) :: cs.entries, cs.next + 1⟩,
         [Ev.upload, Ev.kdf, Ev.shorten]) ∧
    receiveSharedData ⟨[("p", arrayBufferToBase64
                  (encryptBytes dek iv2 none (textEncode (freshId cs.next))))],
              [("i", arrayBufferToBase64 iv2), ("k", wrapDek pwv salt dek iv3),
               ("s", arrayBufferToBase64 salt), ("m", "c")]⟩
        now₂ cloudDownload (some pwv)
        ⟨(freshId cs.next, (encryptBytes dek iv1 none P, iv1)) :: cs.entries, cs.next + 1⟩
      = (.ok P,
         ⟨(freshId cs.next, (encryptBytes dek iv1 none P, iv1)) :: cs.entries, cs.next + 1⟩,
         [Ev.expiryCheck, Ev.prompt, Ev.kdf, Ev.decrypt, Ev.decrypt,
          Ev.download (freshId cs.next), Ev.decrypt]) := by
  have hkne : wrapDek pwv salt dek iv3 ≠ "" := wrapDek_ne_empty pwv salt dek iv3
  have hine : arrayBufferToBase64 iv2 ≠ "" := b64_ne_empty hiv2
  have hsne : arrayBufferToBase64 salt ≠ "" := b64_ne_empty hsalt
  have hepne : arrayBufferToBase64 (encryptBytes dek iv2 none (textEncode (freshId cs.next))) ≠ "" :=
    b64_ne_empty (encryptBytes_ne_nil _ _ _ _)
  constructor
  · simp [createShareLink, modeChar, optEntry, idShorten, cloudUpload, hpwv]
  · simp [receiveSharedData, parseShareUrl, getParam, List.lookup, jsOr, jsNull, jsOrS,
      modeMap, getEpayloadByMode, optEntry, hkne, hine, hsne, hepne, hpwv,
      expiredEndOfDay, cloudDownload]

theorem dyn_flow_nopw (P : Bytes) (now₁ now₂ : Nat) (dek salt iv1 iv2 iv3 : Bytes)
    (st : Store)
    (hdek : dek ≠ []) (hiv2 : iv2 ≠ []) :
    createDynamicLink P none none now₁ dek salt iv1 iv2 iv3 storeCreate st
      = (.ok (DynCreated.mk
              ⟨[("p", arrayBufferToBase64
                  (encryptBytes dek iv2 none (textEncode (freshId (st.next + 1)))))],
              [("i", arrayBufferToBase64 iv2), ("k", arrayBufferToBase64 dek), ("m", "d")]⟩
              (freshId (st.next + 1)) (arrayBufferToBase64 dek) none),
         ⟨(freshId (st.next + 1), .bytes (textEncode (freshId st.next))) ::
            (freshId st.next, .pair (encryptBytes dek iv1 none P) iv1) :: st.entries,
          st.next + 2⟩,
         [Ev.adapterCreate (.pair (encryptBytes dek iv1 none P) iv1),
          Ev.adapterCreate (.bytes (textEncode (freshId st.next)))]) ∧
    receiveDynamicData ⟨[("p", arrayBufferToBase64
                  (encryptBytes dek iv2 none (textEncode (freshId (st.next + 1)))))],
              [("i", arrayBufferToBase64 iv2), ("k", arrayBufferToBase64 dek), ("m", "d")]⟩
        now₂ storeRead none
        ⟨(freshId (st.next + 1), .bytes (textEncode (freshId st.next))) ::
            (freshId st.next, .pair (encryptBytes dek iv1 none P) iv1) :: st.entries,
          st.next + 2⟩
      = (.ok P,
         ⟨(freshId (st.next + 1), .bytes (textEncode (freshId st.next))) ::
            (freshId st.next, .pair (encryptBytes dek iv1 none P) iv1) :: st.entries,
          st.next + 2⟩,
         [Ev.expiryCheck, Ev.decrypt, Ev.adapterRead (freshId (st.next + 1)),
          Ev.adapterRead (freshId st.next), Ev.decrypt]) := by
  have hkne : arrayBufferToBase64 dek ≠ "" := b64_ne_empty hdek
  have hine : arrayBufferToBase64 iv2 ≠ "" := b64_ne_empty hiv2
  have hepne : arrayBufferToBase64
      (encryptBytes dek iv2 none (textEncode (freshId (st.next + 1)))) ≠ "" :=
    b64_ne_empty (encryptBytes_ne_nil _ _ _ _)
  have hne : (freshId st.next == freshId (st.next + 1)) = false := by
    rw [beq_eq_false_iff_ne]
    intro h
    have := freshId_inj h
    omega
  constructor
  · simp [createDynamicLink, optEntry, storeCreate]
  · simp [receiveDynamicData, parseShareUrl, getParam, List.lookup, jsOr, jsNull, jsOrS,
      modeMap, getEpayloadByMode, optEntry, hkne, hine, hepne, expiredStartOfDay, storeRead,
      Stored.asBytes, Stored.asPair, hne]

theorem dyn_flow_pw (P : Bytes) (now₁ now₂ : Nat) (pwv : String) (hpwv : pwv ≠ "")
    (dek salt iv1 iv2 iv3 : Bytes) (st : Store)
    (hsalt : salt ≠ []) (hiv2 : iv2 ≠ []) :
    createDynamicLink P (some pwv) none now₁ dek salt iv1 iv2 iv3 storeCreate st
      = (.ok (DynCreated.mk
              ⟨[("p", arrayBufferToBase64
                  (encryptBytes dek iv2 none (textEncode (freshId (st.next + 1)))))],
              [("i", arrayBufferToBase64 iv2), ("k", wrapDek pwv salt dek iv3), ("m", "d"),
               ("s", arrayBufferToBase64 salt)]⟩
              (freshId (st.next + 1)) (wrapDek pwv salt dek iv3)
              (some (arrayBufferToBase64 salt))),
         ⟨(freshId (st.next + 1), .bytes (textEncode (freshId st.next))) ::
            (freshId st.next, .pair (encryptBytes dek iv1 none P) iv1) :: st.entries,
          st.next + 2⟩,
         [Ev.adapterCreate (.pair (encryptBytes dek iv1 none P) iv1),
          Ev.adapterCreate (.bytes (textEncode (freshId st.next))), Ev.kdf]) ∧
    receiveDynamicData ⟨[("p", arrayBufferToBase64
                  (encryptBytes dek iv2 none (textEncode (freshId (st.next + 1)))))],
              [("i", arrayBufferToBase64 iv2), ("k", wrapDek pwv salt dek iv3), ("m", "d"),
               ("s", arrayBufferToBase64 salt)]⟩
        now₂ storeRead (some pwv)
        ⟨(freshId (st.next + 1), .bytes (textEncode (freshId st.next))) ::
            (freshId st.next, .pair (encryptBytes dek iv1 none P) iv1) :: st.entries,
          st.next + 2⟩
      = (.ok P,
         ⟨(freshId (st.next + 1), .bytes (textEncode (freshId st.next))) ::
            (freshId st.next, .pair (encryptBytes dek iv1 none P) iv1) :: st.entries,
          st.next + 2⟩,
         [Ev.expiryCheck, Ev.prompt, Ev.kdf, Ev.decrypt, Ev.decrypt,
          Ev.adapterRead (freshId (st.next + 1)),
          Ev.adapterRead (freshId st.next), Ev.decrypt]) := by
  have hkne : wrapDek pwv salt dek iv3 ≠ "" := wrapDek_ne_empty pwv salt dek iv3
  have hine : arrayBufferToBase64 iv2 ≠ "" := b64_ne_empty hiv2
  have hsne : arrayBufferToBase64 salt ≠ "" := b64_ne_empty hsalt
  have hepne : arrayBufferToBase64
      (encryptBytes dek iv2 none (textEncode (freshId (st.next + 1)))) ≠ "" :=
    b64_ne_empty (encryptBytes_ne_nil _ _ _ _)
  have hne : (freshId st.next == freshId (st.next + 1)) = false := by
    rw [beq_eq_false_iff_ne]
    intro h
    have := freshId_inj h
    omega
  constructor
  · simp [createDynamicLink, optEntry, storeCreate, hpwv]
  · simp [receiveDynamicData, parseShareUrl, getParam, List.lookup, jsOr, jsNull, jsOrS,
      modeMap, getEpayloadByMode, optEntry, hkne, hine, hsne, hepne, hpwv, expiredStartOfDay,
      storeRead, Stored.asBytes, Stored.asPair, hne]

/-- C1: round trip.  For every payload P, every mode (simple and cloud via
createShareLink, dynamic via createDynamicLink), and password none or "x",
creating a share link and receiving it back through the matching storage
collaborators — with the password prompt returning the same password —
yields exactly P.  (The entropy inputs are constrained only by the RNG
contracts: nonempty DEK, salt and IVs; `now` at receipt is arbitrary since
no expiry is set.) -/
theorem claim_C1 (P : Bytes) (now₁ now₂ : Nat) (pw : Option String)
    (hpw : pw = none ∨ pw = some "x")
    (dek salt iv1 iv2 iv3 : Bytes)
    (hdek : dek ≠ []) (hsalt : salt ≠ []) (hiv1 : iv1 ≠ []) (hiv2 : iv2 ≠ [])
    (limit : Nat) (cs : CloudStore) (st : Store) :
    (∀ loc s' evs, createShareLink P "simple" pw none now₁ dek salt iv1 iv2 iv3
        cloudUpload idShorten cs limit = (Except.ok loc, s', evs) →
      (receiveSharedData loc now₂ cloudDownload pw s').1 = Except.ok P) ∧
    (∀ loc s' evs, createShareLink P "cloud" pw none now₁ dek salt iv1 iv2 iv3
        cloudUpload idShorten cs limit = (Except.ok loc, s', evs) →
      (receiveSharedData loc now₂ cloudDownload pw s').1 = Except.ok P) ∧
    (∀ out s' evs, createDynamicLink P pw none now₁ dek salt iv1 iv2 iv3
        storeCreate st = (Except.ok out, s', evs) →
      (receiveDynamicData out.shareLink now₂ storeRead pw s').1 = Except.ok P) := by
  have hx : ("x" : String) ≠ "" := by decide
  rcases hpw with rfl | rfl
  · refine ⟨fun loc s' evs hc => ?_, fun loc s' evs hc => ?_, fun out s' evs hc => ?_⟩
    · by_cases hlim : (arrayBufferToBase64 (encryptBytes dek iv1 none (gzip P))).length > limit
      · simp [createShareLink, modeChar, hlim] at hc
      · obtain ⟨hcr, hrc⟩ := simple_flow_nopw P now₁ now₂ dek salt iv1 iv2 iv3 cs limit hdek hiv1 hlim
        rw [hcr] at hc
        simp only [Prod.mk.injEq, Except.ok.injEq] at hc
        obtain ⟨hloc, hs, -⟩ := hc
        subst hloc; subst hs
        rw [hrc]
    · obtain ⟨hcr, hrc⟩ := cloud_flow_nopw P now₁ now₂ dek salt iv1 iv2 iv3 cs limit hdek hiv2
      rw [hcr] at hc
      simp only [Prod.mk.injEq, Except.ok.injEq] at hc
      obtain ⟨hloc, hs, -⟩ := hc
      subst hloc; subst hs
      rw [hrc]
    · obtain ⟨hcr, hrc⟩ := dyn_flow_nopw P now₁ now₂ dek salt iv1 iv2 iv3 st hdek hiv2
      rw [hcr] at hc
      simp only [Prod.mk.injEq, Except.ok.injEq] at hc
      obtain ⟨hout, hs, -⟩ := hc
      subst hout; subst hs
      rw [hrc]
  · refine ⟨fun loc s' evs hc => ?_, fun loc s' evs hc => ?_, fun out s' evs hc => ?_⟩
    · by_cases hlim : (arrayBufferToBase64 (encryptBytes dek iv1 none (gzip P))).length > limit
      · simp [createShareLink, modeChar, hlim, hx] at hc
      · obtain ⟨hcr, hrc⟩ := simple_flow_pw P now₁ now₂ "x" hx dek salt iv1 iv2 iv3 cs limit hsalt hiv1 hlim
        rw [hcr] at hc
        simp only [Prod.mk.injEq, Except.ok.injEq] at hc
        obtain ⟨hloc, hs, -⟩ := hc
        subst hloc; subst hs
        rw [hrc]
    · obtain ⟨hcr, hrc⟩ := cloud_flow_pw P now₁ now₂ "x" hx dek salt iv1 iv2 iv3 cs limit hsalt hiv2
      rw [hcr] at hc
      simp only [Prod.mk.injEq, Except.ok.injEq] at hc
      obtain ⟨hloc, hs, -⟩ := hc
      subst hloc; subst hs
      rw [hrc]
    · obtain ⟨hcr, hrc⟩ := dyn_flow_pw P now₁ now₂ "x" hx dek salt iv1 iv2 iv3 st hsalt hiv2
      rw [hcr] at hc
      simp only [Prod.mk.injEq, Except.ok.injEq] at hc
      obtain ⟨hout, hs, -⟩ := hc
      subst hout; subst hs
      rw [hrc]

theorem claim_C1_witness :
    (receiveSharedData
        ⟨[("data", arrayBufferToBase64 (encryptBytes [1] [3] none (gzip [1, 2])))],
         [("i", arrayBufferToBase64 [3]), ("k", arrayBufferToBase64 [1]), ("m", "s")]⟩
        0 cloudDownload none (CloudStore.mk [] 0)).1 = Except.ok [1, 2] :=
  (claim_C1 [1, 2] 0 0 none (Or.inl rfl) [1] [2] [3] [4] [5]
      (by decide) (by decide) (by decide) (by decide) 7700 ⟨[], 0⟩ ⟨[], 0⟩).1
    _ _ [Ev.shorten] (by rfl)

/-- C9: collaborator call counts.  In the matching-collaborator flows of C1:
a simple-mode creation (whatever its outcome) and receipt invoke neither the
upload nor the download handler; a cloud-mode flow invokes the upload handler
exactly once during creation and the download handler exactly once during
receipt; a dynamic-mode flow invokes the adapter's create exactly twice at
creation — first for the data record, then for the pointer record — and its
read exactly twice at receipt — first the pointer record, then the data
record. -/
theorem claim_C9 (P : Bytes) (now₁ now₂ : Nat) (pw : Option String)
    (hpw : pw = none ∨ pw = some "x")
    (dek salt iv1 iv2 iv3 : Bytes)
    (hdek : dek ≠ []) (hsalt : salt ≠ []) (hiv1 : iv1 ≠ []) (hiv2 : iv2 ≠ [])
    (limit : Nat) (cs : CloudStore) (st : Store) :
    (∀ r s' evs, createShareLink P "simple" pw none now₁ dek salt iv1 iv2 iv3
        cloudUpload idShorten cs limit = (r, s', evs) →
      evs.countP (·.isUpload) = 0 ∧ evs.countP (·.isDownload) = 0) ∧
    (∀ loc s' evs, createShareLink P "simple" pw none now₁ dek salt iv1 iv2 iv3
        cloudUpload idShorten cs limit = (Except.ok loc, s', evs) →
      (receiveSharedData loc now₂ cloudDownload pw s').2.2.countP (·.isUpload) = 0 ∧
      (receiveSharedData loc now₂ cloudDownload pw s').2.2.countP (·.isDownload) = 0) ∧
    (∀ loc s' evs, createShareLink P "cloud" pw none now₁ dek salt iv1 iv2 iv3
        cloudUpload idShorten cs limit = (Except.ok loc, s', evs) →
      evs.countP (·.isUpload) = 1 ∧
      (receiveSharedData loc now₂ cloudDownload pw s').2.2.countP (·.isDownload) = 1) ∧
    (∀ out s' evs, createDynamicLink P pw none now₁ dek salt iv1 iv2 iv3
        storeCreate st = (Except.ok out, s', evs) →
      evs.filter (·.isCreate)
          = [Ev.adapterCreate (.pair (encryptBytes dek iv1 none P) iv1),
             Ev.adapterCreate (.bytes (textEncode (freshId st.next)))] ∧
      (receiveDynamicData out.shareLink now₂ storeRead pw s').2.2.filter (·.isRead)
          = [Ev.adapterRead (freshId (st.next + 1)), Ev.adapterRead (freshId st.next)]) := by
  have hx : ("x" : String) ≠ "" := by decide
  rcases hpw with rfl | rfl
  · refine ⟨fun r s' evs hc => ?_, fun loc s' evs hc => ?_,
      fun loc s' evs hc => ?_, fun out s' evs hc => ?_⟩
    · by_cases hlim : (arrayBufferToBase64 (encryptBytes dek iv1 none (gzip P))).length > limit
      · simp only [createShareLink, modeChar] at hc
        simp [hlim] at hc
        obtain ⟨-, -, hevs⟩ := hc
        subst hevs
        exact ⟨rfl, rfl⟩
      · obtain ⟨hcr, -⟩ := simple_flow_nopw P now₁ now₂ dek salt iv1 iv2 iv3 cs limit hdek hiv1 hlim
        rw [hcr] at hc
        simp only [Prod.mk.injEq] at hc
        obtain ⟨-, -, hevs⟩ := hc
        subst hevs
        simp [List.countP, List.countP.go, Ev.isUpload, Ev.isDownload]
    · by_cases hlim : (arrayBufferToBase64 (encryptBytes dek iv1 none (gzip P))).length > limit
      · simp [createShareLink, modeChar, hlim] at hc
      · obtain ⟨hcr, hrc⟩ := simple_flow_nopw P now₁ now₂ dek salt iv1 iv2 iv3 cs limit hdek hiv1 hlim
        rw [hcr] at hc
        simp only [Prod.mk.injEq, Except.ok.injEq] at hc
        obtain ⟨hloc, hs, -⟩ := hc
        subst hloc; subst hs
        rw [hrc]
        simp [List.countP, List.countP.go, Ev.isUpload, Ev.isDownload]
    · obtain ⟨hcr, hrc⟩ := cloud_flow_nopw P now₁ now₂ dek salt iv1 iv2 iv3 cs limit hdek hiv2
      rw [hcr] at hc
      simp only [Prod.mk.injEq, Except.ok.injEq] at hc
      obtain ⟨hloc, hs, hevs⟩ := hc
      subst hloc; subst hs; subst hevs
      rw [hrc]
      simp [List.countP, List.countP.go, Ev.isUpload, Ev.isDownload]
    · obtain ⟨hcr, hrc⟩ := dyn_flow_nopw P now₁ now₂ dek salt iv1 iv2 iv3 st hdek hiv2
      rw [hcr] at hc
      simp only [Prod.mk.injEq, Except.ok.injEq] at hc
      obtain ⟨hout, hs, hevs⟩ := hc
      subst hout; subst hs; subst hevs
      rw [hrc]
      simp [List.filter, Ev.isCreate, Ev.isRead]
  · refine ⟨fun r s' evs hc => ?_, fun loc s' evs hc => ?_,
      fun loc s' evs hc => ?_, fun out s' evs hc => ?_⟩
    · by_cases hlim : (arrayBufferToBase64 (encryptBytes dek iv1 none (gzip P))).length > limit
      · simp only [createShareLink, modeChar] at hc
        simp [hlim, hx] at hc
        obtain ⟨-, -, hevs⟩ := hc
        subst hevs
        simp [List.countP, List.countP.go, Ev.isUpload, Ev.isDownload]
      · obtain ⟨hcr, -⟩ := simple_flow_pw P now₁ now₂ "x" hx dek salt iv1 iv2 iv3 cs limit hsalt hiv1 hlim
        rw [hcr] at hc
        simp only [Prod.mk.injEq] at hc
        obtain ⟨-, -, hevs⟩ := hc
        subst hevs
        simp [List.countP, List.countP.go, Ev.isUpload, Ev.isDownload]
    · by_cases hlim : (arrayBufferToBase64 (encryptBytes dek iv1 none (gzip P))).length > limit
      · simp [createShareLink, modeChar, hlim, hx] at hc
      · obtain ⟨hcr, hrc⟩ := simple_flow_pw P now₁ now₂ "x" hx dek salt iv1 iv2 iv3 cs limit hsalt hiv1 hlim
        rw [hcr] at hc
        simp only [Prod.mk.injEq, Except.ok.injEq] at hc
        obtain ⟨hloc, hs, -⟩ := hc
        subst hloc; subst hs
        rw [hrc]
        simp [List.countP, List.countP.go, Ev.isUpload, Ev.isDownload]
    · obtain ⟨hcr, hrc⟩ := cloud_flow_pw P now₁ now₂ "x" hx dek salt iv1 iv2 iv3 cs limit hsalt hiv2
      rw [hcr] at hc
      simp only [Prod.mk.injEq, Except.ok.injEq] at hc
      obtain ⟨hloc, hs, hevs⟩ := hc
      subst hloc; subst hs; subst hevs
      rw [hrc]
      simp [List.countP, List.countP.go, Ev.isUpload, Ev.isDownload]
    · obtain ⟨hcr, hrc⟩ := dyn_flow_pw P now₁ now₂ "x" hx dek salt iv1 iv2 iv3 st hsalt hiv2
      rw [hcr] at hc
      simp only [Prod.mk.injEq, Except.ok.injEq] at hc
      obtain ⟨hout, hs, hevs⟩ := hc
      subst hout; subst hs; subst hevs
      rw [hrc]
      simp [List.filter, Ev.isCreate, Ev.isRead]

theorem claim_C9_witness :
    (receiveSharedData
        ⟨[("p", arrayBufferToBase64 (encryptBytes [1] [4] none (textEncode (freshId 0))))],
         [("i", arrayBufferToBase64 [4]), ("k", arrayBufferToBase64 [1]), ("m", "c")]⟩
        0 cloudDownload none
        (CloudStore.mk [(freshId 0, (encryptBytes [1] [3] none [1, 2], [3]))] 1)).2.2.countP
      (·.isDownload) = 1 :=
  ((claim_C9 [1, 2] 0 0 none (Or.inl rfl) [1] [2] [3] [4] [5]
      (by decide) (by decide) (by decide) (by decide) 7700 ⟨[], 0⟩ ⟨[], 0⟩).2.2.1
    _ _ [Ev.upload, Ev.shorten] (by rfl)).2

/-- C4: simple-mode size cap.  When the encoded (base64-form) encrypted
payload exceeds the configured limit (caller-overridable, default 7700),
createShareLink fails with PayloadTooLarge; the collaborator state is
untouched and the event trace contains no upload, no shorten and no download
— the failure precedes every handler and network call. -/
theorem claim_C4 {σ : Type} (data : Bytes) (password : Option String)
    (xd : Option Nat) (now : Nat) (dek salt iv1 iv2 iv3 : Bytes)
    (up : σ → Bytes × Bytes → String × σ)
    (sh : σ → List (String × String) → List (String × String) × σ) (s0 : σ)
    (limit : Nat)
    (hlim : (arrayBufferToBase64 (encryptBytes dek iv1
        ((xd.map (fun d => dayStr ((now + d * 86400000) / 86400000))).map textEncode)
        (gzip data))).length > limit) :
    ∀ r s' evs, createShareLink data "simple" password xd now dek salt iv1 iv2 iv3
        up sh s0 limit = (r, s', evs) →
      r = Except.error JsErr.payloadTooLarge ∧ s' = s0 ∧
      evs.countP (·.isUpload) = 0 ∧ evs.countP (· = Ev.shorten) = 0 ∧
      evs.countP (·.isDownload) = 0 := by
  intro r s' evs hc
  rcases xd with _ | d
  · simp only [Option.map_none'] at hlim
    rcases password with _ | pwv
    · simp only [createShareLink, modeChar, Option.map_none'] at hc
      simp [hlim] at hc
      obtain ⟨h1, h2, h3⟩ := hc
      subst h1; subst h2; subst h3
      exact ⟨rfl, rfl, rfl, rfl, rfl⟩
    · by_cases hpv : pwv = "" <;>
        · simp only [createShareLink, modeChar, Option.map_none'] at hc
          simp [hlim, hpv] at hc
          obtain ⟨h1, h2, h3⟩ := hc
          subst h1; subst h2; subst h3
          exact ⟨rfl, rfl, rfl, rfl, rfl⟩
  · simp only [Option.map_some'] at hlim
    rcases password with _ | pwv
    · simp only [createShareLink, modeChar, Option.map_some'] at hc
      simp [hlim] at hc
      obtain ⟨h1, h2, h3⟩ := hc
      subst h1; subst h2; subst h3
      exact ⟨rfl, rfl, rfl, rfl, rfl⟩
    · by_cases hpv : pwv = "" <;>
        · simp only [createShareLink, modeChar, Option.map_some'] at hc
          simp [hlim, hpv] at hc
          obtain ⟨h1, h2, h3⟩ := hc
          subst h1; subst h2; subst h3
          exact ⟨rfl, rfl, rfl, rfl, rfl⟩

theorem claim_C4_witness :
    (Except.error JsErr.payloadTooLarge : Except JsErr Loc)
        = Except.error JsErr.payloadTooLarge ∧
    (CloudStore.mk [] 0) = (CloudStore.mk [] 0) ∧
    ([] : List Ev).countP (·.isUpload) = 0 ∧
    ([] : List Ev).countP (· = Ev.shorten) = 0 ∧
    ([] : List Ev).countP (·.isDownload) = 0 :=
  claim_C4 [1, 2] none none 0 [1] [2] [3] [4] [5] cloudUpload idShorten
    (CloudStore.mk [] 0) 0 (by decide) _ _ [] (by rfl)

/-- C7: password requirement.  For a salt-bearing link (valid, not expired,
with a payload parameter present in the shared-data case) whose password
prompt returns null, both receiveSharedData and receiveDynamicData fail with
PasswordRequired; the event trace is exactly [expiryCheck, prompt] — no key
derivation and no decryption is attempted before that failure. -/
theorem claim_C7 {σC σD : Type} (loc locD : Loc) (now : Nat)
    (dl : σC → String → (Bytes × Bytes) × σC) (sC : σC)
    (rd : σD → String → Stored × σD) (sD : σD)
    (p q : ShareParams) (sv sv' : String)
    (hparse : parseShareUrl loc = some p) (hsalt : p.salt = some sv)
    (hep : p.epayload ≠ "") (hexp : expiredEndOfDay now p.expdate = false)
    (hparseD : parseShareUrl locD = some q) (hmode : q.mode = "dynamic")
    (hsaltD : q.salt = some sv') (hexpD : expiredStartOfDay now q.expdate = false) :
    receiveSharedData loc now dl none sC
        = (Except.error JsErr.passwordRequired, sC, [Ev.expiryCheck, Ev.prompt]) ∧
    receiveDynamicData locD now rd none sD
        = (Except.error JsErr.passwordRequired, sD, [Ev.expiryCheck, Ev.prompt]) := by
  constructor
  · simp only [receiveSharedData, hparse]
    simp [hep, hexp, hsalt, _reconstructDek]
  · simp only [receiveDynamicData, hparseD]
    simp [hmode, hexpD, hsaltD, _reconstructDek]

theorem claim_C7_witness :
    receiveSharedData ⟨[("data", "zz")], [("k", "kk"), ("i", "ii"), ("s", "ss")]⟩
        0 cloudDownload none (CloudStore.mk [] 0)
      = (Except.error JsErr.passwordRequired, CloudStore.mk [] 0,
         [Ev.expiryCheck, Ev.prompt]) ∧
    receiveDynamicData ⟨[("p", "zz")], [("k", "kk"), ("i", "ii"), ("s", "ss"), ("m", "d")]⟩
        0 storeRead none (Store.mk [] 0)
      = (Except.error JsErr.passwordRequired, Store.mk [] 0,
         [Ev.expiryCheck, Ev.prompt]) :=
  claim_C7 ⟨[("data", "zz")], [("k", "kk"), ("i", "ii"), ("s", "ss")]⟩
    ⟨[("p", "zz")], [("k", "kk"), ("i", "ii"), ("s", "ss"), ("m", "d")]⟩
    0 cloudDownload (CloudStore.mk [] 0) storeRead (Store.mk [] 0)
    { mode := "simple", salt := some "ss", expdate := none,
      key := "kk", iv := "ii", epayload := "zz" }
    { mode := "dynamic", salt := some "ss", expdate := none,
      key := "kk", iv := "ii", epayload := "zz" }
    "ss" "ss" (by decide) rfl (by decide) rfl (by decide) rfl rfl rfl

/-- C10 (implicit): a URL that parses as a share link (key and iv present)
but whose resolved payload parameter is empty or absent makes
receiveSharedData fail with InvalidLinkError; the event trace is empty, so
the failure precedes the expiry check, any password prompt or key
derivation, and any decryption attempt. -/
theorem claim_C10 {σ : Type} (loc : Loc) (now : Nat)
    (dl : σ → String → (Bytes × Bytes) × σ) (promptResult : Option String)
    (s0 : σ) (p : ShareParams)
    (hparse : parseShareUrl loc = some p) (hep : p.epayload = "") :
    receiveSharedData loc now dl promptResult s0
      = (Except.error JsErr.invalidLink, s0, []) := by
  simp only [receiveSharedData, hparse]
  simp [hep]

theorem claim_C10_witness :
    receiveSharedData ⟨[], [("k", "kk"), ("i", "ii")]⟩ 0 cloudDownload none
        (CloudStore.mk [] 0)
      = (Except.error JsErr.invalidLink, CloudStore.mk [] 0, []) :=
  claim_C10 ⟨[], [("k", "kk"), ("i", "ii")]⟩ 0 cloudDownload none (CloudStore.mk [] 0)
    { mode := "simple", salt := none, expdate := none,
      key := "kk", iv := "ii", epayload := "" }
    (by decide) rfl

/-- C8: dynamic update.  After updateDynamicLink is invoked with the
pointerFileId, key and salt returned by createDynamicLink (plus the original
password, if any) and new data P', receiving through the original, unchanged
link yields P' — and no longer the original payload.  The update succeeds
given only those creation outputs, so they are sufficient to perform it. -/
theorem claim_C8 (P P' : Bytes) (now₁ now₃ : Nat) (pw : Option String)
    (hpw : pw = none ∨ pw = some "x")
    (dek salt iv1 iv2 iv3 iv4 : Bytes)
    (hdek : dek ≠ []) (hsalt : salt ≠ []) (hiv2 : iv2 ≠ [])
    (st : Store) :
    ∀ out s' evs, createDynamicLink P pw none now₁ dek salt iv1 iv2 iv3
        storeCreate st = (Except.ok out, s', evs) →
      ∃ newId s'' evs'',
        updateDynamicLink out.pointerFileId P' out.key out.salt pw iv4
            storeCreate storeUpdate s' = (Except.ok newId, s'', evs'') ∧
        (receiveDynamicData out.shareLink now₃ storeRead pw s'').1 = Except.ok P' ∧
        (P' ≠ P → (receiveDynamicData out.shareLink now₃ storeRead pw s'').1
            ≠ Except.ok P) := by
  have hx : ("x" : String) ≠ "" := by decide
  have hne21 : (freshId (st.next + 2) == freshId (st.next + 1)) = false := by
    rw [beq_eq_false_iff_ne]
    intro h
    have := freshId_inj h
    omega
  have hptr : freshId (st.next + 1) ≠ "" := freshId_ne_empty _
  intro out s' evs hc
  rcases hpw with rfl | rfl
  · obtain ⟨hcr, -⟩ := dyn_flow_nopw P now₁ now₃ dek salt iv1 iv2 iv3 st hdek hiv2
    rw [hcr] at hc
    simp only [Prod.mk.injEq, Except.ok.injEq] at hc
    obtain ⟨hout, hs, -⟩ := hc
    subst hout; subst hs
    have hkne : arrayBufferToBase64 dek ≠ "" := b64_ne_empty hdek
    have hine : arrayBufferToBase64 iv2 ≠ "" := b64_ne_empty hiv2
    have hepne : arrayBufferToBase64
        (encryptBytes dek iv2 none (textEncode (freshId (st.next + 1)))) ≠ "" :=
      b64_ne_empty (encryptBytes_ne_nil _ _ _ _)
    refine ⟨freshId (st.next + 2),
      ⟨(freshId (st.next + 1), .bytes (textEncode (freshId (st.next + 2)))) ::
        (freshId (st.next + 2), .pair (encryptBytes dek iv4 none P') iv4) ::
        (freshId (st.next + 1), .bytes (textEncode (freshId st.next))) ::
        (freshId st.next, .pair (encryptBytes dek iv1 none P) iv1) :: st.entries,
       st.next + 3⟩,
      [Ev.adapterCreate (.pair (encryptBytes dek iv4 none P') iv4),
       Ev.adapterUpdate (freshId (st.next + 1))], ?_, ?_, ?_⟩
    · simp [updateDynamicLink, hptr, hkne, storeCreate, storeUpdate, jsNull]
    · simp [receiveDynamicData, parseShareUrl, getParam, List.lookup, jsOr, jsNull, jsOrS,
        modeMap, getEpayloadByMode, optEntry, hkne, hine, hepne, expiredStartOfDay,
        storeRead, Stored.asBytes, Stored.asPair, hne21]
    · intro hPP hcontra
      simp [receiveDynamicData, parseShareUrl, getParam, List.lookup, jsOr, jsNull, jsOrS,
        modeMap, getEpayloadByMode, optEntry, hkne, hine, hepne, expiredStartOfDay,
        storeRead, Stored.asBytes, Stored.asPair, hne21] at hcontra
      exact hPP hcontra
  · obtain ⟨hcr, -⟩ := dyn_flow_pw P now₁ now₃ "x" hx dek salt iv1 iv2 iv3 st hsalt hiv2
    rw [hcr] at hc
    simp only [Prod.mk.injEq, Except.ok.injEq] at hc
    obtain ⟨hout, hs, -⟩ := hc
    subst hout; subst hs
    have hkne : wrapDek "x" salt dek iv3 ≠ "" := wrapDek_ne_empty "x" salt dek iv3
    have hine : arrayBufferToBase64 iv2 ≠ "" := b64_ne_empty hiv2
    have hsne : arrayBufferToBase64 salt ≠ "" := b64_ne_empty hsalt
    have hepne : arrayBufferToBase64
        (encryptBytes dek iv2 none (textEncode (freshId (st.next + 1)))) ≠ "" :=
      b64_ne_empty (encryptBytes_ne_nil _ _ _ _)
    refine ⟨freshId (st.next + 2),
      ⟨(freshId (st.next + 1), .bytes (textEncode (freshId (st.next + 2)))) ::
        (freshId (st.next + 2), .pair (encryptBytes dek iv4 none P') iv4) ::
        (freshId (st.next + 1), .bytes (textEncode (freshId st.next))) ::
        (freshId st.next, .pair (encryptBytes dek iv1 none P) iv1) :: st.entries,
       st.next + 3⟩,
      [Ev.kdf, Ev.decrypt,
       Ev.adapterCreate (.pair (encryptBytes dek iv4 none P') iv4),
       Ev.adapterUpdate (freshId (st.next + 1))], ?_, ?_, ?_⟩
    · simp [updateDynamicLink, hptr, hkne, hx, storeCreate, storeUpdate, jsNull]
    · simp [receiveDynamicData, parseShareUrl, getParam, List.lookup, jsOr, jsNull, jsOrS,
        modeMap, getEpayloadByMode, optEntry, hkne, hine, hsne, hepne, hx,
        expiredStartOfDay, storeRead, Stored.asBytes, Stored.asPair, hne21]
    · intro hPP hcontra
      simp [receiveDynamicData, parseShareUrl, getParam, List.lookup, jsOr, jsNull, jsOrS,
        modeMap, getEpayloadByMode, optEntry, hkne, hine, hsne, hepne, hx,
        expiredStartOfDay, storeRead, Stored.asBytes, Stored.asPair, hne21] at hcontra
      exact hPP hcontra

theorem claim_C8_witness :
    ∃ newId s'' evs'',
      updateDynamicLink (freshId 1) [2] (arrayBufferToBase64 [1]) none none [6]
          storeCreate storeUpdate
          (Store.mk [(freshId 1, .bytes (textEncode (freshId 0))),
                     (freshId 0, .pair (encryptBytes [1] [3] none [1]) [3])] 2)
        = (Except.ok newId, s'', evs'') ∧
      (receiveDynamicData
          ⟨[("p", arrayBufferToBase64 (encryptBytes [1] [4] none (textEncode (freshId 1))))],
           [("i", arrayBufferToBase64 [4]), ("k", arrayBufferToBase64 [1]), ("m", "d")]⟩
          0 storeRead none s'').1 = Except.ok [2] ∧
      (([2] : Bytes) ≠ [1] →
        (receiveDynamicData
          ⟨[("p", arrayBufferToBase64 (encryptBytes [1] [4] none (textEncode (freshId 1))))],
           [("i", arrayBufferToBase64 [4]), ("k", arrayBufferToBase64 [1]), ("m", "d")]⟩
          0 storeRead none s'').1 ≠ Except.ok [1]) :=
  claim_C8 [1] [2] 0 0 none (Or.inl rfl) [1] [2] [3] [4] [5] [6]
    (by decide) (by decide) (by decide) ⟨[], 0⟩
    (DynCreated.mk
      ⟨[("p", arrayBufferToBase64 (encryptBytes [1] [4] none (textEncode (freshId 1))))],
       [("i", arrayBufferToBase64 [4]), ("k", arrayBufferToBase64 [1]), ("m", "d")]⟩
      (freshId 1) (arrayBufferToBase64 [1]) none)
    (Store.mk [(freshId 1, .bytes (textEncode (freshId 0))),
               (freshId 0, .pair (encryptBytes [1] [3] none [1]) [3])] 2)
    [Ev.adapterCreate (.pair (encryptBytes [1] [3] none [1]) [3]),
     Ev.adapterCreate (.bytes (textEncode (freshId 0)))]
    (by rfl)

theorem dayStr_ne_empty (d : Nat) : dayStr d ≠ "" := by
  intro h
  have := congrArg String.data h
  simp [dayStr] at this

theorem expiredEndOfDay_false {now D : Nat} (hb : now ≤ D * 86400000 + 86399999) :
    expiredEndOfDay now (some (dayStr D)) = false := by
  simp [expiredEndOfDay, parseDay_dayStr]
  omega

theorem expiredEndOfDay_true {now D : Nat} (hb : now > D * 86400000 + 86399999) :
    expiredEndOfDay now (some (dayStr D)) = true := by
  simp [expiredEndOfDay, parseDay_dayStr]
  omega

theorem expiredStartOfDay_false {now D : Nat} (hb : now ≤ D * 86400000) :
    expiredStartOfDay now (some (dayStr D)) = false := by
  simp [expiredStartOfDay, parseDay_dayStr]
  omega

theorem expiredStartOfDay_true {now D : Nat} (hb : now > D * 86400000) :
    expiredStartOfDay now (some (dayStr D)) = true := by
  simp [expiredStartOfDay, parseDay_dayStr]
  omega

theorem simple_flow_exp_nopw (P : Bytes) (now₁ now₂ d : Nat)
    (dek salt iv1 iv2 iv3 : Bytes) (cs : CloudStore) (limit : Nat)
    (hdek : dek ≠ []) (hiv1 : iv1 ≠ [])
    (hlim : ¬ (arrayBufferToBase64 (encryptBytes dek iv1
        (some (textEncode (dayStr (expDayOf now₁ d)))) (gzip P))).length > limit)
    (hb : now₂ ≤ expDayOf now₁ d * 86400000 + 86399999) :
    createShareLink P "simple" none (some d) now₁ dek salt iv1 iv2 iv3
        cloudUpload idShorten cs limit
      = (.ok ⟨[("data", arrayBufferToBase64 (encryptBytes dek iv1
                (some (textEncode (dayStr (expDayOf now₁ d)))) (gzip P)))],
              [("i", arrayBufferToBase64 iv1), ("k", arrayBufferToBase64 dek),
               ("x", dayStr (expDayOf now₁ d)), ("m", "s")]⟩,
         cs, [Ev.shorten]) ∧
    receiveSharedData ⟨[("data", arrayBufferToBase64 (encryptBytes dek iv1
                (some (textEncode (dayStr (expDayOf now₁ d)))) (gzip P)))],
              [("i", arrayBufferToBase64 iv1), ("k", arrayBufferToBase64 dek),
               ("x", dayStr (expDayOf now₁ d)), ("m", "s")]⟩
        now₂ cloudDownload none cs
      = (.ok P, cs, [Ev.expiryCheck, Ev.decrypt]) := by
  have hkne : arrayBufferToBase64 dek ≠ "" := b64_ne_empty hdek
  have hine : arrayBufferToBase64 iv1 ≠ "" := b64_ne_empty hiv1
  have hxne : dayStr (expDayOf now₁ d) ≠ "" := dayStr_ne_empty _
  have hepne : arrayBufferToBase64 (encryptBytes dek iv1
      (some (textEncode (dayStr (expDayOf now₁ d)))) (gzip P)) ≠ "" :=
    b64_ne_empty (encryptBytes_ne_nil _ _ _ _)
  have hchk := expiredEndOfDay_false hb
  have hlim' : ¬ (arrayBufferToBase64 (encryptBytes dek iv1
      (some (textEncode (dayStr ((now₁ + d * 86400000) / 86400000)))) (gzip P))).length
        > limit := by simpa [expDayOf] using hlim
  constructor
  · simp [createShareLink, modeChar, optEntry, idShorten, expDayOf]
    omega
  · simp [receiveSharedData, parseShareUrl, getParam, List.lookup, jsOr, jsNull, jsOrS,
      modeMap, getEpayloadByMode, optEntry, hkne, hine, hxne, hepne, hchk]

theorem simple_flow_exp_pw (P : Bytes) (now₁ now₂ d : Nat) (pwv : String) (hpwv : pwv ≠ "")
    (dek salt iv1 iv2 iv3 : Bytes) (cs : CloudStore) (limit : Nat)
    (hsalt : salt ≠ []) (hiv1 : iv1 ≠ [])
    (hlim : ¬ (arrayBufferToBase64 (encryptBytes dek iv1
        (some (textEncode (dayStr (expDayOf now₁ d)))) (gzip P))).length > limit)
    (hb : now₂ ≤ expDayOf now₁ d * 86400000 + 86399999) :
    createShareLink P "simple" (some pwv) (some d) now₁ dek salt iv1 iv2 iv3
        cloudUpload idShorten cs limit
      = (.ok ⟨[("data", arrayBufferToBase64 (encryptBytes dek iv1
                (some (textEncode (dayStr (expDayOf now₁ d)))) (gzip P)))],
              [("i", arrayBufferToBase64 iv1), ("k", wrapDek pwv salt dek iv3),
               ("s", arrayBufferToBase64 salt),
               ("x", dayStr (expDayOf now₁ d)), ("m", "s")]⟩,
         cs, [Ev.kdf, Ev.shorten]) ∧
    receiveSharedData ⟨[("data", arrayBufferToBase64 (encryptBytes dek iv1
                (some (textEncode (dayStr (expDayOf now₁ d)))) (gzip P)))],
              [("i", arrayBufferToBase64 iv1), ("k", wrapDek pwv salt dek iv3),
               ("s", arrayBufferToBase64 salt),
               ("x", dayStr (expDayOf now₁ d)), ("m", "s")]⟩
        now₂ cloudDownload (some pwv) cs
      = (.ok P, cs, [Ev.expiryCheck, Ev.prompt, Ev.kdf, Ev.decrypt, Ev.decrypt]) := by
  have hkne : wrapDek pwv salt dek iv3 ≠ "" := wrapDek_ne_empty pwv salt dek iv3
  have hine : arrayBufferToBase64 iv1 ≠ "" := b64_ne_empty hiv1
  have hsne : arrayBufferToBase64 salt ≠ "" := b64_ne_empty hsalt
  have hxne : dayStr (expDayOf now₁ d) ≠ "" := dayStr_ne_empty _
  have hepne : arrayBufferToBase64 (encryptBytes dek iv1
      (some (textEncode (dayStr (expDayOf now₁ d)))) (gzip P)) ≠ "" :=
    b64_ne_empty (encryptBytes_ne_nil _ _ _ _)
  have hchk := expiredEndOfDay_false hb
  have hlim' : ¬ (arrayBufferToBase64 (encryptBytes dek iv1
      (some (textEncode (dayStr ((now₁ + d * 86400000) / 86400000)))) (gzip P))).length
        > limit := by simpa [expDayOf] using hlim
  constructor
  · simp [createShareLink, modeChar, optEntry, idShorten, hpwv, expDayOf]
    omega
  · simp [receiveSharedData, parseShareUrl, getParam, List.lookup, jsOr, jsNull, jsOrS,
      modeMap, getEpayloadByMode, optEntry, hkne, hine, hsne, hxne, hepne, hpwv, hchk]

theorem cloud_flow_exp_nopw (P : Bytes) (now₁ now₂ d : Nat)
    (dek salt iv1 iv2 iv3 : Bytes) (cs : CloudStore) (limit : Nat)
    (hdek : dek ≠ []) (hiv2 : iv2 ≠ [])
    (hb : now₂ ≤ expDayOf now₁ d * 86400000 + 86399999) :
    createShareLink P "cloud" none (some d) now₁ dek salt iv1 iv2 iv3
        cloudUpload idShorten cs limit
      = (.ok ⟨[("p", arrayBufferToBase64 (encryptBytes dek iv2
                (some (textEncode (dayStr (expDayOf now₁ d))))
                (textEncode (freshId cs.next))))],
              [("i", arrayBufferToBase64 iv2), ("k", arrayBufferToBase64 dek),
               ("x", dayStr (expDayOf now₁ d)), ("m", "c")]⟩,
         ⟨(freshId cs.next, (encryptBytes dek iv1
            (some (textEncode (dayStr (expDayOf now₁ d)))) P, iv1)) :: cs.entries,
          cs.next + 1⟩,
         [Ev.upload, Ev.shorten]) ∧
    receiveSharedData ⟨[("p", arrayBufferToBase64 (encryptBytes dek iv2
                (some (textEncode (dayStr (expDayOf now₁ d))))
                (textEncode (freshId cs.next))))],
              [("i", arrayBufferToBase64 iv2), ("k", arrayBufferToBase64 dek),
               ("x", dayStr (expDayOf now₁ d)), ("m", "c")]⟩
        now₂ cloudDownload none
        ⟨(freshId cs.next, (encryptBytes dek iv1
            (some (textEncode (dayStr (expDayOf now₁ d)))) P, iv1)) :: cs.entries,
          cs.next + 1⟩
      = (.ok P,
         ⟨(freshId cs.next, (encryptBytes dek iv1
            (some (textEncode (dayStr (expDayOf now₁ d)))) P, iv1)) :: cs.entries,
          cs.next + 1⟩,
         [Ev.expiryCheck, Ev.decrypt, Ev.download (freshId cs.next), Ev.decrypt]) := by
  have hkne : arrayBufferToBase64 dek ≠ "" := b64_ne_empty hdek
  have hine : arrayBufferToBase64 iv2 ≠ "" := b64_ne_empty hiv2
  have hxne : dayStr (expDayOf now₁ d) ≠ "" := dayStr_ne_empty _
  have hepne : arrayBufferToBase64 (encryptBytes dek iv2
      (some (textEncode (dayStr (expDayOf now₁ d)))) (textEncode (freshId cs.next))) ≠ "" :=
    b64_ne_empty (encryptBytes_ne_nil _ _ _ _)
  have hchk := expiredEndOfDay_false hb
  constructor
  · simp [createShareLink, modeChar, optEntry, idShorten, cloudUpload, expDayOf]
  · simp [receiveSharedData, parseShareUrl, getParam, List.lookup, jsOr, jsNull, jsOrS,
      modeMap, getEpayloadByMode, optEntry, hkne, hine, hxne, hepne, hchk, cloudDownload]

theorem cloud_flow_exp_pw (P : Bytes) (now₁ now₂ d : Nat) (pwv : String) (hpwv : pwv ≠ "")
    (dek salt iv1 iv2 iv3 : Bytes) (cs : CloudStore) (limit : Nat)
    (hsalt : salt ≠ []) (hiv2 : iv2 ≠ [])
    (hb : now₂ ≤ expDayOf now₁ d * 86400000 + 86399999) :
    createShareLink P "cloud" (some pwv) (some d) now₁ dek salt iv1 iv2 iv3
        cloudUpload idShorten cs limit
      = (.ok ⟨[("p", arrayBufferToBase64 (encryptBytes dek iv2
                (some (textEncode (dayStr (expDayOf now₁ d))))
                (textEncode (freshId cs.next))))],
              [("i", arrayBufferToBase64 iv2), ("k", wrapDek pwv salt dek iv3),
               ("s", arrayBufferToBase64 salt),
               ("x", dayStr (expDayOf now₁ d)), ("m", "c")]⟩,
         ⟨(freshId cs.next, (encryptBytes dek iv1
            (some (textEncode (dayStr (expDayOf now₁ d)))) P, iv1)) :: cs.entries,
          cs.next + 1⟩,
         [Ev.upload, Ev.kdf, Ev.shorten]) ∧
    receiveSharedData ⟨[("p", arrayBufferToBase64 (encryptBytes dek iv2
                (some (textEncode (dayStr (expDayOf now₁ d))))
                (textEncode (freshId cs.next))))],
              [("i", arrayBufferToBase64 iv2), ("k", wrapDek pwv salt dek iv3),
               ("s", arrayBufferToBase64 salt),
               ("x", dayStr (expDayOf now₁ d)), ("m", "c")]⟩
        now₂ cloudDownload (some pwv)
        ⟨(freshId cs.next, (encryptBytes dek iv1
            (some (textEncode (dayStr (expDayOf now₁ d)))) P, iv1)) :: cs.entries,
          cs.next + 1⟩
      = (.ok P,
         ⟨(freshId cs.next, (encryptBytes dek iv1
            (some (textEncode (dayStr (expDayOf now₁ d)))) P, iv1)) :: cs.entries,
          cs.next + 1⟩,
         [Ev.expiryCheck, Ev.prompt, Ev.kdf, Ev.decrypt, Ev.decrypt,
          Ev.download (freshId cs.next), Ev.decrypt]) := by
  have hkne : wrapDek pwv salt dek iv3 ≠ "" := wrapDek_ne_empty pwv salt dek iv3
  have hine : arrayBufferToBase64 iv2 ≠ "" := b64_ne_empty hiv2
  have hsne : arrayBufferToBase64 salt ≠ "" := b64_ne_empty hsalt
  have hxne : dayStr (expDayOf now₁ d) ≠ "" := dayStr_ne_empty _
  have hepne : arrayBufferToBase64 (encryptBytes dek iv2
      (some (textEncode (dayStr (expDayOf now₁ d)))) (textEncode (freshId cs.next))) ≠ "" :=
    b64_ne_empty (encryptBytes_ne_nil _ _ _ _)
  have hchk := expiredEndOfDay_false hb
  constructor
  · simp [createShareLink, modeChar, optEntry, idShorten, cloudUpload, hpwv, expDayOf]
  · simp [receiveSharedData, parseShareUrl, getParam, List.lookup, jsOr, jsNull, jsOrS,
      modeMap, getEpayloadByMode, optEntry, hkne, hine, hsne, hxne, hepne, hpwv, hchk,
      cloudDownload]

theorem dyn_flow_exp_nopw (P : Bytes) (now₁ now₂ d : Nat)
    (dek salt iv1 iv2 iv3 : Bytes) (st : Store)
    (hdek : dek ≠ []) (hiv2 : iv2 ≠ [])
    (hb : now₂ ≤ expDayOf now₁ d * 86400000) :
    createDynamicLink P none (some d) now₁ dek salt iv1 iv2 iv3 storeCreate st
      = (.ok (DynCreated.mk
              ⟨[("p", arrayBufferToBase64
                  (encryptBytes dek iv2 none (textEncode (freshId (st.next + 1)))))],
              [("i", arrayBufferToBase64 iv2), ("k", arrayBufferToBase64 dek), ("m", "d"),
               ("x", dayStr (expDayOf now₁ d))]⟩
              (freshId (st.next + 1)) (arrayBufferToBase64 dek) none),
         ⟨(freshId (st.next + 1), .bytes (textEncode (freshId st.next))) ::
            (freshId st.next, .pair (encryptBytes dek iv1 none P) iv1) :: st.entries,
          st.next + 2⟩,
         [Ev.adapterCreate (.pair (encryptBytes dek iv1 none P) iv1),
          Ev.adapterCreate (.bytes (textEncode (freshId st.next)))]) ∧
    receiveDynamicData ⟨[("p", arrayBufferToBase64
                  (encryptBytes dek iv2 none (textEncode (freshId (st.next + 1)))))],
              [("i", arrayBufferToBase64 iv2), ("k", arrayBufferToBase64 dek), ("m", "d"),
               ("x", dayStr (expDayOf now₁ d))]⟩
        now₂ storeRead none
        ⟨(freshId (st.next + 1), .bytes (textEncode (freshId st.next))) ::
            (freshId st.next, .pair (encryptBytes dek iv1 none P) iv1) :: st.entries,
          st.next + 2⟩
      = (.ok P,
         ⟨(freshId (st.next + 1), .bytes (textEncode (freshId st.next))) ::
            (freshId st.next, .pair (encryptBytes dek iv1 none P) iv1) :: st.entries,
          st.next + 2⟩,
         [Ev.expiryCheck, Ev.decrypt, Ev.adapterRead (freshId (st.next + 1)),
          Ev.adapterRead (freshId st.next), Ev.decrypt]) := by
  have hkne : arrayBufferToBase64 dek ≠ "" := b64_ne_empty hdek
  have hine : arrayBufferToBase64 iv2 ≠ "" := b64_ne_empty hiv2
  have hxne : dayStr (expDayOf now₁ d) ≠ "" := dayStr_ne_empty _
  have hepne : arrayBufferToBase64
      (encryptBytes dek iv2 none (textEncode (freshId (st.next + 1)))) ≠ "" :=
    b64_ne_empty (encryptBytes_ne_nil _ _ _ _)
  have hchk := expiredStartOfDay_false hb
  have hne : (freshId st.next == freshId (st.next + 1)) = false := by
    rw [beq_eq_false_iff_ne]
    intro h
    have := freshId_inj h
    omega
  constructor
  · simp [createDynamicLink, optEntry, storeCreate, expDayOf]
  · simp [receiveDynamicData, parseShareUrl, getParam, List.lookup, jsOr, jsNull, jsOrS,
      modeMap, getEpayloadByMode, optEntry, hkne, hine, hxne, hepne, hchk, storeRead,
      Stored.asBytes, Stored.asPair, hne]

theorem dyn_flow_exp_pw (P : Bytes) (now₁ now₂ d : Nat) (pwv : String) (hpwv : pwv ≠ "")
    (dek salt iv1 iv2 iv3 : Bytes) (st : Store)
    (hsalt : salt ≠ []) (hiv2 : iv2 ≠ [])
    (hb : now₂ ≤ expDayOf now₁ d * 86400000) :
    createDynamicLink P (some pwv) (some d) now₁ dek salt iv1 iv2 iv3 storeCreate st
      = (.ok (DynCreated.mk
              ⟨[("p", arrayBufferToBase64
                  (encryptBytes dek iv2 none (textEncode (freshId (st.next + 1)))))],
              [("i", arrayBufferToBase64 iv2), ("k", wrapDek pwv salt dek iv3), ("m", "d"),
               ("s", arrayBufferToBase64 salt), ("x", dayStr (expDayOf now₁ d))]⟩
              (freshId (st.next + 1)) (wrapDek pwv salt dek iv3)
              (some (arrayBufferToBase64 salt))),
         ⟨(freshId (st.next + 1), .bytes (textEncode (freshId st.next))) ::
            (freshId st.next, .pair (encryptBytes dek iv1 none P) iv1) :: st.entries,
          st.next + 2⟩,
         [Ev.adapterCreate (.pair (encryptBytes dek iv1 none P) iv1),
          Ev.adapterCreate (.bytes (textEncode (freshId st.next))), Ev.kdf]) ∧
    receiveDynamicData ⟨[("p", arrayBufferToBase64
                  (encryptBytes dek iv2 none (textEncode (freshId (st.next + 1)))))],
              [("i", arrayBufferToBase64 iv2), ("k", wrapDek pwv salt dek iv3), ("m", "d"),
               ("s", arrayBufferToBase64 salt), ("x", dayStr (expDayOf now₁ d))]⟩
        now₂ storeRead (some pwv)
        ⟨(freshId (st.next + 1), .bytes (textEncode (freshId st.next))) ::
            (freshId st.next, .pair (encryptBytes dek iv1 none P) iv1) :: st.entries,
          st.next + 2⟩
      = (.ok P,
         ⟨(freshId (st.next + 1), .bytes (textEncode (freshId st.next))) ::
            (freshId st.next, .pair (encryptBytes dek iv1 none P) iv1) :: st.entries,
          st.next + 2⟩,
         [Ev.expiryCheck, Ev.prompt, Ev.kdf, Ev.decrypt, Ev.decrypt,
          Ev.adapterRead (freshId (st.next + 1)),
          Ev.adapterRead (freshId st.next), Ev.decrypt]) := by
  have hkne : wrapDek pwv salt dek iv3 ≠ "" := wrapDek_ne_empty pwv salt dek iv3
  have hine : arrayBufferToBase64 iv2 ≠ "" := b64_ne_empty hiv2
  have hsne : arrayBufferToBase64 salt ≠ "" := b64_ne_empty hsalt
  have hxne : dayStr (expDayOf now₁ d) ≠ "" := dayStr_ne_empty _
  have hepne : arrayBufferToBase64
      (encryptBytes dek iv2 none (textEncode (freshId (st.next + 1)))) ≠ "" :=
    b64_ne_empty (encryptBytes_ne_nil _ _ _ _)
  have hchk := expiredStartOfDay_false hb
  have hne : (freshId st.next == freshId (st.next + 1)) = false := by
    rw [beq_eq_false_iff_ne]
    intro h
    have := freshId_inj h
    omega
  constructor
  · simp [createDynamicLink, optEntry, storeCreate, hpwv, expDayOf]
  · simp [receiveDynamicData, parseShareUrl, getParam, List.lookup, jsOr, jsNull, jsOrS,
      modeMap, getEpayloadByMode, optEntry, hkne, hine, hsne, hxne, hepne, hpwv, hchk,
      storeRead, Stored.asBytes, Stored.asPair, hne]

/-- C3 counterexample: the claim asserts that a dynamic link with expiry
date D still decrypts at D 23:59:59.999 UTC.  On the code it does not: a
dynamic link created at time 0 with expiresInDays 1 carries expiry day 1,
and receiveDynamicData at time 172799999 (day 1, 23:59:59.999 UTC) fails
with ExpiredLink, because src/dynamic.js compares against `new Date(expdate)`
— the start of day D — rather than the end of day used in src/index.js. -/
theorem claim_C3_counterexample :
    createDynamicLink [7] none (some 1) 0 [1] [2] [3] [4] [5] storeCreate ⟨[], 0⟩
      = (Except.ok (DynCreated.mk
            ⟨[("p", arrayBufferToBase64 (encryptBytes [1] [4] none (textEncode (freshId 1))))],
             [("i", arrayBufferToBase64 [4]), ("k", arrayBufferToBase64 [1]), ("m", "d"),
              ("x", dayStr 1)]⟩
            (freshId 1) (arrayBufferToBase64 [1]) none),
         ⟨[(freshId 1, .bytes (textEncode (freshId 0))),
           (freshId 0, .pair (encryptBytes [1] [3] none [7]) [3])], 2⟩,
         [Ev.adapterCreate (.pair (encryptBytes [1] [3] none [7]) [3]),
          Ev.adapterCreate (.bytes (textEncode (freshId 0)))]) ∧
    (receiveDynamicData
        ⟨[("p", arrayBufferToBase64 (encryptBytes [1] [4] none (textEncode (freshId 1))))],
         [("i", arrayBufferToBase64 [4]), ("k", arrayBufferToBase64 [1]), ("m", "d"),
          ("x", dayStr 1)]⟩
        172799999 storeRead none
        ⟨[(freshId 1, .bytes (textEncode (freshId 0))),
          (freshId 0, .pair (encryptBytes [1] [3] none [7]) [3])], 2⟩).1
      = Except.error JsErr.expiredLink :=
  ⟨rfl, rfl⟩

/-- C3 (amended): for links with expiry day D (created with expiresInDays
set), simple and cloud receipt succeed at D 23:59:59.999 UTC and fail with
ExpiredLink at D+1 00:00:00.000 UTC, as claimed; dynamic receipt, however,
is bounded by the start of day D: it succeeds at D 00:00:00.000 UTC and
already fails with ExpiredLink at D 23:59:59.999 UTC. -/
theorem claim_C3 (P : Bytes) (now₁ d : Nat) (pw : Option String)
    (hpw : pw = none ∨ pw = some "x")
    (dek salt iv1 iv2 iv3 : Bytes)
    (hdek : dek ≠ []) (hsalt : salt ≠ []) (hiv1 : iv1 ≠ []) (hiv2 : iv2 ≠ [])
    (limit : Nat) (cs : CloudStore) (st : Store) :
    (∀ loc s' evs, createShareLink P "simple" pw (some d) now₁ dek salt iv1 iv2 iv3
        cloudUpload idShorten cs limit = (Except.ok loc, s', evs) →
      (receiveSharedData loc (expDayOf now₁ d * 86400000 + 86399999)
          cloudDownload pw s').1 = Except.ok P ∧
      (receiveSharedData loc (expDayOf now₁ d * 86400000 + 86400000)
          cloudDownload pw s').1 = Except.error JsErr.expiredLink) ∧
    (∀ loc s' evs, createShareLink P "cloud" pw (some d) now₁ dek salt iv1 iv2 iv3
        cloudUpload idShorten cs limit = (Except.ok loc, s', evs) →
      (receiveSharedData loc (expDayOf now₁ d * 86400000 + 86399999)
          cloudDownload pw s').1 = Except.ok P ∧
      (receiveSharedData loc (expDayOf now₁ d * 86400000 + 86400000)
          cloudDownload pw s').1 = Except.error JsErr.expiredLink) ∧
    (∀ out s' evs, createDynamicLink P pw (some d) now₁ dek salt iv1 iv2 iv3
        storeCreate st = (Except.ok out, s', evs) →
      (receiveDynamicData out.shareLink (expDayOf now₁ d * 86400000)
          storeRead pw s').1 = Except.ok P ∧
      (receiveDynamicData out.shareLink (expDayOf now₁ d * 86400000 + 86399999)
          storeRead pw s').1 = Except.error JsErr.expiredLink) := by
  have hx : ("x" : String) ≠ "" := by decide
  have hxne : dayStr (expDayOf now₁ d) ≠ "" := dayStr_ne_empty _
  have hchkE : expiredEndOfDay (expDayOf now₁ d * 86400000 + 86400000)
      (some (dayStr (expDayOf now₁ d))) = true := expiredEndOfDay_true (by omega)
  have hchkD : expiredStartOfDay (expDayOf now₁ d * 86400000 + 86399999)
      (some (dayStr (expDayOf now₁ d))) = true := expiredStartOfDay_true (by omega)
  rcases hpw with rfl | rfl
  · refine ⟨fun loc s' evs hc => ?_, fun loc s' evs hc => ?_, fun out s' evs hc => ?_⟩
    · by_cases hlim : (arrayBufferToBase64 (encryptBytes dek iv1
          (some (textEncode (dayStr (expDayOf now₁ d)))) (gzip P))).length > limit
      · exfalso
        simp only [createShareLink, modeChar] at hc
        simp [expDayOf] at hc
        simp [expDayOf] at hlim
        simp [hlim] at hc
      · obtain ⟨hcr, hrc⟩ := simple_flow_exp_nopw P now₁ _ d dek salt iv1 iv2 iv3 cs limit
          hdek hiv1 hlim le_rfl
        rw [hcr] at hc
        simp only [Prod.mk.injEq, Except.ok.injEq] at hc
        obtain ⟨hloc, hs, -⟩ := hc
        subst hloc; subst hs
        have hkne : arrayBufferToBase64 dek ≠ "" := b64_ne_empty hdek
        have hine : arrayBufferToBase64 iv1 ≠ "" := b64_ne_empty hiv1
        have hepne : arrayBufferToBase64 (encryptBytes dek iv1
            (some (textEncode (dayStr (expDayOf now₁ d)))) (gzip P)) ≠ "" :=
          b64_ne_empty (encryptBytes_ne_nil _ _ _ _)
        refine ⟨by rw [hrc], ?_⟩
        simp [receiveSharedData, parseShareUrl, getParam, List.lookup, jsOr, jsNull, jsOrS,
          modeMap, getEpayloadByMode, optEntry, hkne, hine, hxne, hepne, hchkE]
    · obtain ⟨hcr, hrc⟩ := cloud_flow_exp_nopw P now₁ _ d dek salt iv1 iv2 iv3 cs limit
        hdek hiv2 le_rfl
      rw [hcr] at hc
      simp only [Prod.mk.injEq, Except.ok.injEq] at hc
      obtain ⟨hloc, hs, -⟩ := hc
      subst hloc; subst hs
      have hkne : arrayBufferToBase64 dek ≠ "" := b64_ne_empty hdek
      have hine : arrayBufferToBase64 iv2 ≠ "" := b64_ne_empty hiv2
      have hepne : arrayBufferToBase64 (encryptBytes dek iv2
          (some (textEncode (dayStr (expDayOf now₁ d)))) (textEncode (freshId cs.next))) ≠ "" :=
        b64_ne_empty (encryptBytes_ne_nil _ _ _ _)
      refine ⟨by rw [hrc], ?_⟩
      simp [receiveSharedData, parseShareUrl, getParam, List.lookup, jsOr, jsNull, jsOrS,
        modeMap, getEpayloadByMode, optEntry, hkne, hine, hxne, hepne, hchkE]
    · obtain ⟨hcr, hrc⟩ := dyn_flow_exp_nopw P now₁ _ d dek salt iv1 iv2 iv3 st
        hdek hiv2 le_rfl
      rw [hcr] at hc
      simp only [Prod.mk.injEq, Except.ok.injEq] at hc
      obtain ⟨hout, hs, -⟩ := hc
      subst hout; subst hs
      have hkne : arrayBufferToBase64 dek ≠ "" := b64_ne_empty hdek
      have hine : arrayBufferToBase64 iv2 ≠ "" := b64_ne_empty hiv2
      have hepne : arrayBufferToBase64
          (encryptBytes dek iv2 none (textEncode (freshId (st.next + 1)))) ≠ "" :=
        b64_ne_empty (encryptBytes_ne_nil _ _ _ _)
      refine ⟨by rw [hrc], ?_⟩
      simp [receiveDynamicData, parseShareUrl, getParam, List.lookup, jsOr, jsNull, jsOrS,
        modeMap, getEpayloadByMode, optEntry, hkne, hine, hxne, hepne, hchkD]
  · refine ⟨fun loc s' evs hc => ?_, fun loc s' evs hc => ?_, fun out s' evs hc => ?_⟩
    · by_cases hlim : (arrayBufferToBase64 (encryptBytes dek iv1
          (some (textEncode (dayStr (expDayOf now₁ d)))) (gzip P))).length > limit
      · exfalso
        simp only [createShareLink, modeChar] at hc
        simp [expDayOf] at hc
        simp [expDayOf] at hlim
        simp [hlim, hx] at hc
      · obtain ⟨hcr, hrc⟩ := simple_flow_exp_pw P now₁ _ d "x" hx dek salt iv1 iv2 iv3 cs limit
          hsalt hiv1 hlim le_rfl
        rw [hcr] at hc
        simp only [Prod.mk.injEq, Except.ok.injEq] at hc
        obtain ⟨hloc, hs, -⟩ := hc
        subst hloc; subst hs
        have hkne : wrapDek "x" salt dek iv3 ≠ "" := wrapDek_ne_empty "x" salt dek iv3
        have hine : arrayBufferToBase64 iv1 ≠ "" := b64_ne_empty hiv1
        have hsne : arrayBufferToBase64 salt ≠ "" := b64_ne_empty hsalt
        have hepne : arrayBufferToBase64 (encryptBytes dek iv1
            (some (textEncode (dayStr (expDayOf now₁ d)))) (gzip P)) ≠ "" :=
          b64_ne_empty (encryptBytes_ne_nil _ _ _ _)
        refine ⟨by rw [hrc], ?_⟩
        simp [receiveSharedData, parseShareUrl, getParam, List.lookup, jsOr, jsNull, jsOrS,
          modeMap, getEpayloadByMode, optEntry, hkne, hine, hsne, hxne, hepne, hchkE]
    · obtain ⟨hcr, hrc⟩ := cloud_flow_exp_pw P now₁ _ d "x" hx dek salt iv1 iv2 iv3 cs limit
        hsalt hiv2 le_rfl
      rw [hcr] at hc
      simp only [Prod.mk.injEq, Except.ok.injEq] at hc
      obtain ⟨hloc, hs, -⟩ := hc
      subst hloc; subst hs
      have hkne : wrapDek "x" salt dek iv3 ≠ "" := wrapDek_ne_empty "x" salt dek iv3
      have hine : arrayBufferToBase64 iv2 ≠ "" := b64_ne_empty hiv2
      have hsne : arrayBufferToBase64 salt ≠ "" := b64_ne_empty hsalt
      have hepne : arrayBufferToBase64 (encryptBytes dek iv2
          (some (textEncode (dayStr (expDayOf now₁ d)))) (textEncode (freshId cs.next))) ≠ "" :=
        b64_ne_empty (encryptBytes_ne_nil _ _ _ _)
      refine ⟨by rw [hrc], ?_⟩
      simp [receiveSharedData, parseShareUrl, getParam, List.lookup, jsOr, jsNull, jsOrS,
        modeMap, getEpayloadByMode, optEntry, hkne, hine, hsne, hxne, hepne, hchkE]
    · obtain ⟨hcr, hrc⟩ := dyn_flow_exp_pw P now₁ _ d "x" hx dek salt iv1 iv2 iv3 st
        hsalt hiv2 le_rfl
      rw [hcr] at hc
      simp only [Prod.mk.injEq, Except.ok.injEq] at hc
      obtain ⟨hout, hs, -⟩ := hc
      subst hout; subst hs
      have hkne : wrapDek "x" salt dek iv3 ≠ "" := wrapDek_ne_empty "x" salt dek iv3
      have hine : arrayBufferToBase64 iv2 ≠ "" := b64_ne_empty hiv2
      have hsne : arrayBufferToBase64 salt ≠ "" := b64_ne_empty hsalt
      have hepne : arrayBufferToBase64
          (encryptBytes dek iv2 none (textEncode (freshId (st.next + 1)))) ≠ "" :=
        b64_ne_empty (encryptBytes_ne_nil _ _ _ _)
      refine ⟨by rw [hrc], ?_⟩
      simp [receiveDynamicData, parseShareUrl, getParam, List.lookup, jsOr, jsNull, jsOrS,
        modeMap, getEpayloadByMode, optEntry, hkne, hine, hsne, hxne, hepne, hchkD]

theorem claim_C3_witness :
    (receiveSharedData
        ⟨[("data", arrayBufferToBase64
            (encryptBytes [1] [3] (some (textEncode (dayStr 1))) (gzip [7])))],
         [("i", arrayBufferToBase64 [3]), ("k", arrayBufferToBase64 [1]),
          ("x", dayStr 1), ("m", "s")]⟩
        172799999 cloudDownload none (CloudStore.mk [] 0)).1 = Except.ok [7] ∧
    (receiveSharedData
        ⟨[("data", arrayBufferToBase64
            (encryptBytes [1] [3] (some (textEncode (dayStr 1))) (gzip [7])))],
         [("i", arrayBufferToBase64 [3]), ("k", arrayBufferToBase64 [1]),
          ("x", dayStr 1), ("m", "s")]⟩
        172800000 cloudDownload none (CloudStore.mk [] 0)).1
      = Except.error JsErr.expiredLink :=
  (claim_C3 [7] 0 1 none (Or.inl rfl) [1] [2] [3] [4] [5]
      (by decide) (by decide) (by decide) (by decide) 7700 ⟨[], 0⟩ ⟨[], 0⟩).1
    _ _ [Ev.shorten] (by rfl)

theorem flipBit_ne {c : Bytes} {j : Nat} (m : Nat) (hj : j < c.length) :
    flipBit j m c ≠ c := by
  intro h
  have hg := congrArg (fun l => l.getD j 0) h
  simp only [flipBit] at hg
  rw [List.getD_eq_getElem _ _ (by simpa using hj), List.getElem_set_self,
    List.getD_eq_getElem _ _ hj] at hg
  have := xor_pow_ne (c.getD j 0) m
  rw [List.getD_eq_getElem _ _ hj] at this
  exact this hg

theorem flipBit_ne_nil {c : Bytes} (j m : Nat) (h : c ≠ []) : flipBit j m c ≠ [] := by
  intro hnil
  have := congrArg List.length hnil
  simp only [flipBit, List.length_set, List.length_nil] at this
  exact h (List.length_eq_zero.mp this)

/-- Receipt of a simple/cloud-shaped link whose embedded payload fails to
decrypt (under the aad recomputed from the link's expiry) ends in
DecryptionError. -/
theorem receiveSC_fail {σ : Type} (now : Nat) (dl : σ → String → (Bytes × Bytes) × σ)
    (pr : Option String) (s0 : σ) (dek : Bytes) (evsR : List Ev)
    (pn ep ivs ks xs ml : String) (so : Option String)
    (hpn : pn = "data" ∨ pn = "p") (hml : ml = "s" ∨ ml = "c")
    (hiv : ivs ≠ "") (hk : ks ≠ "") (hx : xs ≠ "") (hep : ep ≠ "")
    (hs : ∀ s, so = some s → s ≠ "")
    (hchk : expiredEndOfDay now (some xs) = false)
    (hrec : _reconstructDek ks so (match so with | some _ => pr | none => none)
        = (.ok dek, evsR))
    (hdec : decryptBytes dek (base64ToArrayBuffer ivs) (some (textEncode xs))
        (base64ToArrayBuffer ep) = none) :
    (receiveSharedData ⟨[(pn, ep)],
        [("i", ivs), ("k", ks)] ++ optEntry "s" so ++ optEntry "x" (some xs) ++ [("m", ml)]⟩
      now dl pr s0).1 = Except.error JsErr.decryptionError := by
  have hml' : ml ≠ "" := by rcases hml with rfl | rfl <;> decide
  have hparse := parseShareUrl_std pn ep ivs ks ml so (some xs) hiv hk hml' hs
    (fun s h => by cases h; exact hx)
  simp only [receiveSharedData, hparse]
  rcases so with _ | sv <;> rcases hpn with rfl | rfl <;> rcases hml with rfl | rfl <;>
    simp_all [getEpayloadByMode, getParam, List.lookup, jsOr, jsNull, jsOrS, modeMap]

/-- Receipt of a dynamic-shaped link whose embedded pointer ciphertext fails
to decrypt ends in DecryptionError. -/
theorem receiveDyn_fail {σ : Type} (now : Nat) (rd : σ → String → Stored × σ)
    (pr : Option String) (s0 : σ) (dek : Bytes) (evsR : List Ev)
    (ep ivs ks xs : String) (so : Option String)
    (hiv : ivs ≠ "") (hk : ks ≠ "") (hx : xs ≠ "") (hep : ep ≠ "")
    (hs : ∀ s, so = some s → s ≠ "")
    (hchk : expiredStartOfDay now (some xs) = false)
    (hrec : _reconstructDek ks so (match so with | some _ => pr | none => none)
        = (.ok dek, evsR))
    (hdec : decryptBytes dek (base64ToArrayBuffer ivs) none
        (base64ToArrayBuffer ep) = none) :
    (receiveDynamicData ⟨[("p", ep)],
        [("i", ivs), ("k", ks), ("m", "d")] ++ optEntry "s" so ++ optEntry "x" (some xs)⟩
      now rd pr s0).1 = Except.error JsErr.decryptionError := by
  have hparse := parseShareUrl_dyn ep ivs ks so (some xs) hiv hk hs
    (fun s h => by cases h; exact hx)
  simp only [receiveDynamicData, hparse]
  rcases so with _ | sv <;>
    simp_all [getEpayloadByMode, getParam, List.lookup, jsOr, jsNull, jsOrS]

/-- Receipt of a dynamic link succeeds for ANY expiry value that passes the
start-of-day check: the dynamic ciphertexts carry no aad, so the expiry
value does not participate in decryption. -/
theorem receiveDyn_okx (now : Nat) (P : Bytes)
    (pr : Option String) (dek iv1 iv2 : Bytes) (evsR : List Ev)
    (ks xs : String) (so : Option String) (st : Store)
    (hiv2 : iv2 ≠ []) (hk : ks ≠ "") (hx : xs ≠ "")
    (hs : ∀ s, so = some s → s ≠ "")
    (hchk : expiredStartOfDay now (some xs) = false)
    (hrec : _reconstructDek ks so (match so with | some _ => pr | none => none)
        = (.ok dek, evsR)) :
    (receiveDynamicData ⟨[("p", arrayBufferToBase64
          (encryptBytes dek iv2 none (textEncode (freshId (st.next + 1)))))],
        [("i", arrayBufferToBase64 iv2), ("k", ks), ("m", "d")]
          ++ optEntry "s" so ++ optEntry "x" (some xs)⟩
      now storeRead pr
      ⟨(freshId (st.next + 1), .bytes (textEncode (freshId st.next))) ::
          (freshId st.next, .pair (encryptBytes dek iv1 none P) iv1) :: st.entries,
        st.next + 2⟩).1 = Except.ok P := by
  have hine : arrayBufferToBase64 iv2 ≠ "" := b64_ne_empty hiv2
  have hepne : arrayBufferToBase64
      (encryptBytes dek iv2 none (textEncode (freshId (st.next + 1)))) ≠ "" :=
    b64_ne_empty (encryptBytes_ne_nil _ _ _ _)
  have hne : (freshId st.next == freshId (st.next + 1)) = false := by
    rw [beq_eq_false_iff_ne]
    intro h
    have := freshId_inj h
    omega
  have hparse := parseShareUrl_dyn (arrayBufferToBase64
      (encryptBytes dek iv2 none (textEncode (freshId (st.next + 1)))))
    (arrayBufferToBase64 iv2) ks so (some xs) hine hk hs
    (fun s h => by cases h; exact hx)
  simp only [receiveDynamicData, hparse]
  rcases so with _ | sv <;>
    simp [getEpayloadByMode, getParam, List.lookup, jsOr, jsNull, jsOrS, hepne, hchk,
      hrec, hne, hk, hx, storeRead, Stored.asBytes, Stored.asPair]

/-- C2 counterexample: the claim asserts that for every share link created
with an expiry — dynamic included — a tampered expiry never decrypts
successfully and receipt fails with DecryptionError.  On the code, a dynamic
link created with expiresInDays 1 (expiry day 1), with its `x` fragment
parameter replaced by a different date (day 5), is received SUCCESSFULLY:
createDynamicLink encrypts without any aad, so the expiry participates in no
ciphertext and receipt returns the payload. -/
theorem claim_C2_counterexample :
    createDynamicLink [7] none (some 1) 0 [1] [2] [3] [4] [5] storeCreate ⟨[], 0⟩
      = (Except.ok (DynCreated.mk
            ⟨[("p", arrayBufferToBase64 (encryptBytes [1] [4] none (textEncode (freshId 1))))],
             [("i", arrayBufferToBase64 [4]), ("k", arrayBufferToBase64 [1]), ("m", "d"),
              ("x", dayStr 1)]⟩
            (freshId 1) (arrayBufferToBase64 [1]) none),
         ⟨[(freshId 1, .bytes (textEncode (freshId 0))),
           (freshId 0, .pair (encryptBytes [1] [3] none [7]) [3])], 2⟩,
         [Ev.adapterCreate (.pair (encryptBytes [1] [3] none [7]) [3]),
          Ev.adapterCreate (.bytes (textEncode (freshId 0)))]) ∧
    dayStr 5 ≠ dayStr 1 ∧
    (receiveDynamicData (setFrag
        ⟨[("p", arrayBufferToBase64 (encryptBytes [1] [4] none (textEncode (freshId 1))))],
         [("i", arrayBufferToBase64 [4]), ("k", arrayBufferToBase64 [1]), ("m", "d"),
          ("x", dayStr 1)]⟩ "x" (dayStr 5)) 0 storeRead none
        ⟨[(freshId 1, .bytes (textEncode (freshId 0))),
          (freshId 0, .pair (encryptBytes [1] [3] none [7]) [3])], 2⟩).1
      = Except.ok [7] :=
  ⟨rfl, by decide, rfl⟩

/-- C2 (amended): for every link created with an expiry set and received at
a time at which the link passes its expiry check: flipping any bit of any
element of the decoded embedded ciphertext, or of the decoded IV, causes
receipt to fail with DecryptionError in all three modes.  For simple and
cloud links every ciphertext is bound to the expiry-derived AAD and the
receiver recomputes that AAD from the parsed expiry, so replacing the expiry
field with any other (nonempty, still-unexpired) value also fails with
DecryptionError.  For dynamic links, however, the ciphertexts are NOT
AAD-bound (createDynamicLink calls encryptData without aad): a tampered
expiry that passes the start-of-day check decrypts successfully and receipt
returns the payload. -/
theorem claim_C2 (P : Bytes) (now₁ now₂ d : Nat) (pw : Option String)
    (hpw : pw = none ∨ pw = some "x")
    (dek salt iv1 iv2 iv3 : Bytes)
    (hdek : dek ≠ []) (hsalt : salt ≠ []) (hiv1 : iv1 ≠ []) (hiv2 : iv2 ≠ [])
    (limit : Nat) (cs : CloudStore) (st : Store)
    (hb : now₂ ≤ expDayOf now₁ d * 86400000) :
    (∀ loc s' evs, createShareLink P "simple" pw (some d) now₁ dek salt iv1 iv2 iv3
        cloudUpload idShorten cs limit = (Except.ok loc, s', evs) →
      (∀ j m, j < (encryptBytes dek iv1
            (some (textEncode (dayStr (expDayOf now₁ d)))) (gzip P)).length →
        (receiveSharedData (setQuery loc "data" (arrayBufferToBase64
            (flipBit j m (encryptBytes dek iv1
              (some (textEncode (dayStr (expDayOf now₁ d)))) (gzip P)))))
          now₂ cloudDownload pw s').1 = Except.error JsErr.decryptionError) ∧
      (∀ j m, j < iv1.length →
        (receiveSharedData (setFrag loc "i" (arrayBufferToBase64 (flipBit j m iv1)))
          now₂ cloudDownload pw s').1 = Except.error JsErr.decryptionError) ∧
      (∀ e', e' ≠ dayStr (expDayOf now₁ d) → e' ≠ "" →
        expiredEndOfDay now₂ (some e') = false →
        (receiveSharedData (setFrag loc "x" e') now₂ cloudDownload pw s').1
          = Except.error JsErr.decryptionError)) ∧
    (∀ loc s' evs, createShareLink P "cloud" pw (some d) now₁ dek salt iv1 iv2 iv3
        cloudUpload idShorten cs limit = (Except.ok loc, s', evs) →
      (∀ j m, j < (encryptBytes dek iv2
            (some (textEncode (dayStr (expDayOf now₁ d))))
            (textEncode (freshId cs.next))).length →
        (receiveSharedData (setQuery loc "p" (arrayBufferToBase64
            (flipBit j m (encryptBytes dek iv2
              (some (textEncode (dayStr (expDayOf now₁ d))))
              (textEncode (freshId cs.next))))))
          now₂ cloudDownload pw s').1 = Except.error JsErr.decryptionError) ∧
      (∀ j m, j < iv2.length →
        (receiveSharedData (setFrag loc "i" (arrayBufferToBase64 (flipBit j m iv2)))
          now₂ cloudDownload pw s').1 = Except.error JsErr.decryptionError) ∧
      (∀ e', e' ≠ dayStr (expDayOf now₁ d) → e' ≠ "" →
        expiredEndOfDay now₂ (some e') = false →
        (receiveSharedData (setFrag loc "x" e') now₂ cloudDownload pw s').1
          = Except.error JsErr.decryptionError)) ∧
    (∀ out s' evs, createDynamicLink P pw (some d) now₁ dek salt iv1 iv2 iv3
        storeCreate st = (Except.ok out, s', evs) →
      (∀ j m, j < (encryptBytes dek iv2 none
            (textEncode (freshId (st.next + 1)))).length →
        (receiveDynamicData (setQuery out.shareLink "p" (arrayBufferToBase64
            (flipBit j m (encryptBytes dek iv2 none
              (textEncode (freshId (st.next + 1)))))))
          now₂ storeRead pw s').1 = Except.error JsErr.decryptionError) ∧
      (∀ j m, j < iv2.length →
        (receiveDynamicData (setFrag out.shareLink "i"
            (arrayBufferToBase64 (flipBit j m iv2)))
          now₂ storeRead pw s').1 = Except.error JsErr.decryptionError) ∧
      (∀ e', e' ≠ dayStr (expDayOf now₁ d) → e' ≠ "" →
        expiredStartOfDay now₂ (some e') = false →
        (receiveDynamicData (setFrag out.shareLink "x" e') now₂ storeRead pw s').1
          = Except.ok P)) := by
  have hx : ("x" : String) ≠ "" := by decide
  have hxne : dayStr (expDayOf now₁ d) ≠ "" := dayStr_ne_empty _
  have hchk : expiredEndOfDay now₂ (some (dayStr (expDayOf now₁ d))) = false :=
    expiredEndOfDay_false (by omega)
  have haadS : ∀ e' : String, e' ≠ dayStr (expDayOf now₁ d) →
      (some (textEncode e') : Option Bytes)
        ≠ some (textEncode (dayStr (expDayOf now₁ d))) := by
    intro e' he' h
    exact he' (textEncode_injective (Option.some.inj h))
  rcases hpw with rfl | rfl
  · refine ⟨fun loc s' evs hc => ?_, fun loc s' evs hc => ?_, fun out s' evs hc => ?_⟩
    · by_cases hlim : (arrayBufferToBase64 (encryptBytes dek iv1
          (some (textEncode (dayStr (expDayOf now₁ d)))) (gzip P))).length > limit
      · exfalso
        simp only [createShareLink, modeChar] at hc
        simp [expDayOf] at hc
        simp [expDayOf] at hlim
        simp [hlim] at hc
      · obtain ⟨hcr, -⟩ := simple_flow_exp_nopw P now₁ now₂ d dek salt iv1 iv2 iv3 cs limit
          hdek hiv1 hlim (by omega)
        rw [hcr] at hc
        simp only [Prod.mk.injEq, Except.ok.injEq] at hc
        obtain ⟨hloc, hs, -⟩ := hc
        subst hloc; subst hs
        refine ⟨fun j m hj => ?_, fun j m hj => ?_, fun e' he' hne hchk' => ?_⟩
        · exact receiveSC_fail now₂ cloudDownload none cs dek [] "data" _ _ _ _ "s" none
            (Or.inl rfl) (Or.inl rfl) (b64_ne_empty hiv1) (b64_ne_empty hdek) hxne
            (b64_ne_empty (flipBit_ne_nil j m (encryptBytes_ne_nil _ _ _ _)))
            (fun s h => by cases h) hchk (reconstructDek_plain dek _)
            (by rw [b64_roundtrip, b64_roundtrip]; exact decryptBytes_flipBit _ _ _ _ j m hj)
        · exact receiveSC_fail now₂ cloudDownload none cs dek [] "data" _ _ _ _ "s" none
            (Or.inl rfl) (Or.inl rfl) (b64_ne_empty (flipBit_ne_nil j m hiv1))
            (b64_ne_empty hdek) hxne
            (b64_ne_empty (encryptBytes_ne_nil _ _ _ _))
            (fun s h => by cases h) hchk (reconstructDek_plain dek _)
            (by rw [b64_roundtrip, b64_roundtrip]
                exact decryptBytes_wrong_iv _ _ _ _ _ (flipBit_ne m hj))
        · exact receiveSC_fail now₂ cloudDownload none cs dek [] "data" _ _ _ e' "s" none
            (Or.inl rfl) (Or.inl rfl) (b64_ne_empty hiv1) (b64_ne_empty hdek) hne
            (b64_ne_empty (encryptBytes_ne_nil _ _ _ _))
            (fun s h => by cases h) hchk' (reconstructDek_plain dek _)
            (by rw [b64_roundtrip, b64_roundtrip]
                exact decryptBytes_wrong_aad _ _ _ _ _ (haadS e' he'))
    · obtain ⟨hcr, -⟩ := cloud_flow_exp_nopw P now₁ now₂ d dek salt iv1 iv2 iv3 cs limit
        hdek hiv2 (by omega)
      rw [hcr] at hc
      simp only [Prod.mk.injEq, Except.ok.injEq] at hc
      obtain ⟨hloc, hs, -⟩ := hc
      subst hloc; subst hs
      refine ⟨fun j m hj => ?_, fun j m hj => ?_, fun e' he' hne hchk' => ?_⟩
      · exact receiveSC_fail now₂ cloudDownload none _ dek [] "p" _ _ _ _ "c" none
          (Or.inr rfl) (Or.inr rfl) (b64_ne_empty hiv2) (b64_ne_empty hdek) hxne
          (b64_ne_empty (flipBit_ne_nil j m (encryptBytes_ne_nil _ _ _ _)))
          (fun s h => by cases h) hchk (reconstructDek_plain dek _)
          (by rw [b64_roundtrip, b64_roundtrip]; exact decryptBytes_flipBit _ _ _ _ j m hj)
      · exact receiveSC_fail now₂ cloudDownload none _ dek [] "p" _ _ _ _ "c" none
          (Or.inr rfl) (Or.inr rfl) (b64_ne_empty (flipBit_ne_nil j m hiv2))
          (b64_ne_empty hdek) hxne
          (b64_ne_empty (encryptBytes_ne_nil _ _ _ _))
          (fun s h => by cases h) hchk (reconstructDek_plain dek _)
          (by rw [b64_roundtrip, b64_roundtrip]
              exact decryptBytes_wrong_iv _ _ _ _ _ (flipBit_ne m hj))
      · exact receiveSC_fail now₂ cloudDownload none _ dek [] "p" _ _ _ e' "c" none
          (Or.inr rfl) (Or.inr rfl) (b64_ne_empty hiv2) (b64_ne_empty hdek) hne
          (b64_ne_empty (encryptBytes_ne_nil _ _ _ _))
          (fun s h => by cases h) hchk' (reconstructDek_plain dek _)
          (by rw [b64_roundtrip, b64_roundtrip]
              exact decryptBytes_wrong_aad _ _ _ _ _ (haadS e' he'))
    · obtain ⟨hcr, -⟩ := dyn_flow_exp_nopw P now₁ now₂ d dek salt iv1 iv2 iv3 st
        hdek hiv2 (by omega)
      rw [hcr] at hc
      simp only [Prod.mk.injEq, Except.ok.injEq] at hc
      obtain ⟨hout, hs, -⟩ := hc
      subst hout; subst hs
      refine ⟨fun j m hj => ?_, fun j m hj => ?_, fun e' he' hne hchk' => ?_⟩
      · exact receiveDyn_fail now₂ storeRead none _ dek [] _ _ _ _ none
          (b64_ne_empty hiv2) (b64_ne_empty hdek) hxne
          (b64_ne_empty (flipBit_ne_nil j m (encryptBytes_ne_nil _ _ _ _)))
          (fun s h => by cases h) (expiredStartOfDay_false hb)
          (reconstructDek_plain dek _)
          (by rw [b64_roundtrip, b64_roundtrip]; exact decryptBytes_flipBit _ _ _ _ j m hj)
      · exact receiveDyn_fail now₂ storeRead none _ dek [] _ _ _ _ none
          (b64_ne_empty (flipBit_ne_nil j m hiv2)) (b64_ne_empty hdek) hxne
          (b64_ne_empty (encryptBytes_ne_nil _ _ _ _))
          (fun s h => by cases h) (expiredStartOfDay_false hb)
          (reconstructDek_plain dek _)
          (by rw [b64_roundtrip, b64_roundtrip]
              exact decryptBytes_wrong_iv _ _ _ _ _ (flipBit_ne m hj))
      · exact receiveDyn_okx now₂ P none dek iv1 iv2 [] _ e' none st
          hiv2 (b64_ne_empty hdek) hne (fun s h => by cases h) hchk'
          (reconstructDek_plain dek _)
  · refine ⟨fun loc s' evs hc => ?_, fun loc s' evs hc => ?_, fun out s' evs hc => ?_⟩
    · by_cases hlim : (arrayBufferToBase64 (encryptBytes dek iv1
          (some (textEncode (dayStr (expDayOf now₁ d)))) (gzip P))).length > limit
      · exfalso
        simp only [createShareLink, modeChar] at hc
        simp [expDayOf] at hc
        simp [expDayOf] at hlim
        simp [hlim, hx] at hc
      · obtain ⟨hcr, -⟩ := simple_flow_exp_pw P now₁ now₂ d "x" hx dek salt iv1 iv2 iv3 cs
          limit hsalt hiv1 hlim (by omega)
        rw [hcr] at hc
        simp only [Prod.mk.injEq, Except.ok.injEq] at hc
        obtain ⟨hloc, hs, -⟩ := hc
        subst hloc; subst hs
        refine ⟨fun j m hj => ?_, fun j m hj => ?_, fun e' he' hne hchk' => ?_⟩
        · exact receiveSC_fail now₂ cloudDownload (some "x") cs dek [Ev.kdf, Ev.decrypt]
            "data" _ _ _ _ "s" (some (arrayBufferToBase64 salt))
            (Or.inl rfl) (Or.inl rfl) (b64_ne_empty hiv1) (wrapDek_ne_empty _ _ _ _) hxne
            (b64_ne_empty (flipBit_ne_nil j m (encryptBytes_ne_nil _ _ _ _)))
            (fun s h => by cases h; exact b64_ne_empty hsalt) hchk
            (reconstructDek_wrapped "x" hx salt dek iv3)
            (by rw [b64_roundtrip, b64_roundtrip]; exact decryptBytes_flipBit _ _ _ _ j m hj)
        · exact receiveSC_fail now₂ cloudDownload (some "x") cs dek [Ev.kdf, Ev.decrypt]
            "data" _ _ _ _ "s" (some (arrayBufferToBase64 salt))
            (Or.inl rfl) (Or.inl rfl) (b64_ne_empty (flipBit_ne_nil j m hiv1))
            (wrapDek_ne_empty _ _ _ _) hxne
            (b64_ne_empty (encryptBytes_ne_nil _ _ _ _))
            (fun s h => by cases h; exact b64_ne_empty hsalt) hchk
            (reconstructDek_wrapped "x" hx salt dek iv3)
            (by rw [b64_roundtrip, b64_roundtrip]
                exact decryptBytes_wrong_iv _ _ _ _ _ (flipBit_ne m hj))
        · exact receiveSC_fail now₂ cloudDownload (some "x") cs dek [Ev.kdf, Ev.decrypt]
            "data" _ _ _ e' "s" (some (arrayBufferToBase64 salt))
            (Or.inl rfl) (Or.inl rfl) (b64_ne_empty hiv1) (wrapDek_ne_empty _ _ _ _) hne
            (b64_ne_empty (encryptBytes_ne_nil _ _ _ _))
            (fun s h => by cases h; exact b64_ne_empty hsalt) hchk'
            (reconstructDek_wrapped "x" hx salt dek iv3)
            (by rw [b64_roundtrip, b64_roundtrip]
                exact decryptBytes_wrong_aad _ _ _ _ _ (haadS e' he'))
    · obtain ⟨hcr, -⟩ := cloud_flow_exp_pw P now₁ now₂ d "x" hx dek salt iv1 iv2 iv3 cs
        limit hsalt hiv2 (by omega)
      rw [hcr] at hc
      simp only [Prod.mk.injEq, Except.ok.injEq] at hc
      obtain ⟨hloc, hs, -⟩ := hc
      subst hloc; subst hs
      refine ⟨fun j m hj => ?_, fun j m hj => ?_, fun e' he' hne hchk' => ?_⟩
      · exact receiveSC_fail now₂ cloudDownload (some "x") _ dek [Ev.kdf, Ev.decrypt]
          "p" _ _ _ _ "c" (some (arrayBufferToBase64 salt))
          (Or.inr rfl) (Or.inr rfl) (b64_ne_empty hiv2) (wrapDek_ne_empty _ _ _ _) hxne
          (b64_ne_empty (flipBit_ne_nil j m (encryptBytes_ne_nil _ _ _ _)))
          (fun s h => by cases h; exact b64_ne_empty hsalt) hchk
          (reconstructDek_wrapped "x" hx salt dek iv3)
          (by rw [b64_roundtrip, b64_roundtrip]; exact decryptBytes_flipBit _ _ _ _ j m hj)
      · exact receiveSC_fail now₂ cloudDownload (some "x") _ dek [Ev.kdf, Ev.decrypt]
          "p" _ _ _ _ "c" (some (arrayBufferToBase64 salt))
          (Or.inr rfl) (Or.inr rfl) (b64_ne_empty (flipBit_ne_nil j m hiv2))
          (wrapDek_ne_empty _ _ _ _) hxne
          (b64_ne_empty (encryptBytes_ne_nil _ _ _ _))
          (fun s h => by cases h; exact b64_ne_empty hsalt) hchk
          (reconstructDek_wrapped "x" hx salt dek iv3)
          (by rw [b64_roundtrip, b64_roundtrip]
              exact decryptBytes_wrong_iv _ _ _ _ _ (flipBit_ne m hj))
      · exact receiveSC_fail now₂ cloudDownload (some "x") _ dek [Ev.kdf, Ev.decrypt]
          "p" _ _ _ e' "c" (some (arrayBufferToBase64 salt))
          (Or.inr rfl) (Or.inr rfl) (b64_ne_empty hiv2) (wrapDek_ne_empty _ _ _ _) hne
          (b64_ne_empty (encryptBytes_ne_nil _ _ _ _))
          (fun s h => by cases h; exact b64_ne_empty hsalt) hchk'
          (reconstructDek_wrapped "x" hx salt dek iv3)
          (by rw [b64_roundtrip, b64_roundtrip]
              exact decryptBytes_wrong_aad _ _ _ _ _ (haadS e' he'))
    · obtain ⟨hcr, -⟩ := dyn_flow_exp_pw P now₁ now₂ d "x" hx dek salt iv1 iv2 iv3 st
        hsalt hiv2 (by omega)
      rw [hcr] at hc
      simp only [Prod.mk.injEq, Except.ok.injEq] at hc
      obtain ⟨hout, hs, -⟩ := hc
      subst hout; subst hs
      refine ⟨fun j m hj => ?_, fun j m hj => ?_, fun e' he' hne hchk' => ?_⟩
      · exact receiveDyn_fail now₂ storeRead (some "x") _ dek [Ev.kdf, Ev.decrypt]
          _ _ _ _ (some (arrayBufferToBase64 salt))
          (b64_ne_empty hiv2) (wrapDek_ne_empty _ _ _ _) hxne
          (b64_ne_empty (flipBit_ne_nil j m (encryptBytes_ne_nil _ _ _ _)))
          (fun s h => by cases h; exact b64_ne_empty hsalt) (expiredStartOfDay_false hb)
          (reconstructDek_wrapped "x" hx salt dek iv3)
          (by rw [b64_roundtrip, b64_roundtrip]; exact decryptBytes_flipBit _ _ _ _ j m hj)
      · exact receiveDyn_fail now₂ storeRead (some "x") _ dek [Ev.kdf, Ev.decrypt]
          _ _ _ _ (some (arrayBufferToBase64 salt))
          (b64_ne_empty (flipBit_ne_nil j m hiv2)) (wrapDek_ne_empty _ _ _ _) hxne
          (b64_ne_empty (encryptBytes_ne_nil _ _ _ _))
          (fun s h => by cases h; exact b64_ne_empty hsalt) (expiredStartOfDay_false hb)
          (reconstructDek_wrapped "x" hx salt dek iv3)
          (by rw [b64_roundtrip, b64_roundtrip]
              exact decryptBytes_wrong_iv _ _ _ _ _ (flipBit_ne m hj))
      · exact receiveDyn_okx now₂ P (some "x") dek iv1 iv2 [Ev.kdf, Ev.decrypt]
          _ e' (some (arrayBufferToBase64 salt)) st
          hiv2 (wrapDek_ne_empty _ _ _ _) hne
          (fun s h => by cases h; exact b64_ne_empty hsalt) hchk'
          (reconstructDek_wrapped "x" hx salt dek iv3)

theorem claim_C2_witness :
    (receiveDynamicData (setFrag
        ⟨[("p", arrayBufferToBase64 (encryptBytes [1] [4] none (textEncode (freshId 1))))],
         [("i", arrayBufferToBase64 [4]), ("k", arrayBufferToBase64 [1]), ("m", "d"),
          ("x", dayStr 1)]⟩ "x" (dayStr 5)) 0 storeRead none
        ⟨[(freshId 1, .bytes (textEncode (freshId 0))),
          (freshId 0, .pair (encryptBytes [1] [3] none [7]) [3])], 2⟩).1
      = Except.ok [7] :=
  ((claim_C2 [7] 0 0 1 none (Or.inl rfl) [1] [2] [3] [4] [5]
      (by decide) (by decide) (by decide) (by decide) 7700 ⟨[], 0⟩ ⟨[], 0⟩
      (by decide)).2.2
    (DynCreated.mk
      ⟨[("p", arrayBufferToBase64 (encryptBytes [1] [4] none (textEncode (freshId 1))))],
       [("i", arrayBufferToBase64 [4]), ("k", arrayBufferToBase64 [1]), ("m", "d"),
        ("x", dayStr 1)]⟩
      (freshId 1) (arrayBufferToBase64 [1]) none)
    ⟨[(freshId 1, .bytes (textEncode (freshId 0))),
      (freshId 0, .pair (encryptBytes [1] [3] none [7]) [3])], 2⟩
    [Ev.adapterCreate (.pair (encryptBytes [1] [3] none [7]) [3]),
     Ev.adapterCreate (.bytes (textEncode (freshId 0)))]
    (by rfl)).2.2 (dayStr 5) (by decide) (by decide) (by decide)

theorem claim_C6_witness :
    parseShareUrl ⟨[("data", "D"), ("p", "P")], [("k", "K"), ("i", "V")]⟩
      = some { mode := "simple", salt := none, expdate := none,
               key := "K", iv := "V", epayload := "D" } ∧
    ("D" : String) ≠ "" ∧
    ({ mode := "simple", salt := none, expdate := none, key := "K", iv := "V",
       epayload := "D" : ShareParams }.mode = "simple" →
      (getParam [("data", "D"), ("p", "P")] "data" = some "D" →
        ({ mode := "simple", salt := none, expdate := none, key := "K", iv := "V",
           epayload := "D" : ShareParams }.epayload = "D"))) :=
  ⟨by decide, by decide,
    fun hm hd =>
      ((claim_C6 ⟨[("data", "D"), ("p", "P")], [("k", "K"), ("i", "V")]⟩ _ "D"
        (by decide) (by decide)).1 hm).1 hd⟩

end Saba
